import Mathlib

/-!
Shallow embedding of the configuration subsystem of the repository
(`tools/helpers/config_manager`: `config_conversion.py`, `config_dict.py`,
`config_models.py`, plus `tools/helpers/utils/utils.py` and the value models
in `tools/helpers/models`), together with proofs settling the frozen claims
about it.

Python strings are modelled as `List Char`; Python dictionaries
(`collections.OrderedDict`) as insertion-ordered association lists where
assigning an existing key updates it in place and a new key is appended.
Python exceptions are modelled by the `PyErr` error type inside `Except`.
-/

namespace PyCfg

/-- Python strings, modelled as lists of characters. -/
abbrev Str := List Char

/-- Coerce a Lean string literal to the model's string type. -/
def strL (s : String) : Str := s.data

/-- Python exception classes relevant to the configuration subsystem. -/
inductive PyErr where
  | valueError
  | typeError
  | syntaxError
  | keyError
  | attributeError
  | unknownError
  deriving DecidableEq, Repr

/-- Python whitespace test used by `str.strip` (model: Lean's char whitespace). -/
def pyIsSpace (c : Char) : Bool := c.isWhitespace

/-- ASCII lower-casing table backing the model of Python `str.lower`
(the source only ever lower-cases config keys, which are ASCII). -/
def lowerPairs : List (Char × Char) :=
  [('A', 'a'), ('B', 'b'), ('C', 'c'), ('D', 'd'), ('E', 'e'), ('F', 'f'),
   ('G', 'g'), ('H', 'h'), ('I', 'i'), ('J', 'j'), ('K', 'k'), ('L', 'l'),
   ('M', 'm'), ('N', 'n'), ('O', 'o'), ('P', 'p'), ('Q', 'q'), ('R', 'r'),
   ('S', 's'), ('T', 't'), ('U', 'u'), ('V', 'v'), ('W', 'w'), ('X', 'x'),
   ('Y', 'y'), ('Z', 'z')]

/-- Model of Python `str.lower` on a single character (ASCII fragment). -/
def pyLowerChar (c : Char) : Char :=
  match lowerPairs.find? (fun p => p.1 == c) with
  | some p => p.2
  | none => c

/-- Model of Python `str.lower`. -/
def pyLower (s : Str) : Str := s.map pyLowerChar

/-- Remove the longest run of matching characters at the end of a string
(the right-hand half of `str.strip`). -/
def dropWhileRight (p : Char → Bool) : Str → Str
  | [] => []
  | c :: rest =>
    let r := dropWhileRight p rest
    if r.isEmpty ∧ p c then [] else c :: r

/-- Model of Python `str.strip` (no argument: strips whitespace at both ends). -/
def pyStrip (s : Str) : Str :=
  dropWhileRight pyIsSpace (s.dropWhile pyIsSpace)

/-- Model of Python `str.lstrip(c)` for a single character `c`. -/
def pyLstripChar (c : Char) (s : Str) : Str := s.dropWhile (· == c)

/-- Model of Python `str.rstrip(c)` for a single character `c`. -/
def pyRstripChar (c : Char) (s : Str) : Str :=
  (s.reverse.dropWhile (· == c)).reverse

/-- Model of Python `str.split(sep)` for a single-character separator:
splits at every occurrence, keeping empty pieces. -/
def pySplit (sep : Char) : Str → List Str
  | [] => [[]]
  | c :: rest =>
    let r := pySplit sep rest
    if c == sep then
      [] :: r
    else
      match r with
      | [] => [[c]]
      | piece :: more => (c :: piece) :: more

/-- Model of Python `str.replace(old, new)` for single characters. -/
def pyReplaceChar (old new : Char) (s : Str) : Str :=
  s.map (fun c => if c == old then new else c)

/-- Model of Python `str.replace(old, '')` for a single character (removal). -/
def pyRemoveChar (old : Char) (s : Str) : Str :=
  s.filter (fun c => !(c == old))

/-- Key normalization of `config_dict.to_key`: `str(obj).lower().strip()`
(case-insensitive `SectionDict` keys). -/
def toKey (s : Str) : Str := pyStrip (pyLower s)

/-- Section-name normalization of `config_dict.to_section`: `str(obj).strip()`
(case-sensitive `ConfigDict` section names). -/
def toSection (s : Str) : Str := pyStrip s

/-! ### Ordered-dictionary (association list) primitives -/

/-- Lookup in an ordered dictionary (first matching key). -/
def odLookup {β : Type} : List (Str × β) → Str → Option β
  | [], _ => none
  | (k', v) :: rest, k => if k' = k then some v else odLookup rest k

/-- Key membership in an ordered dictionary (Python `k in d`). -/
def odMem {β : Type} : List (Str × β) → Str → Bool
  | [], _ => false
  | (k', _) :: rest, k => if k' = k then true else odMem rest k

/-- Assignment `d[k] = v` on an ordered dictionary: an existing key keeps its
position and gets the new value, a new key is appended at the end. -/
def odSet {β : Type} (d : List (Str × β)) (k : Str) (v : β) : List (Str × β) :=
  match d with
  | [] => [(k, v)]
  | (k', v') :: rest =>
    if k' = k then (k, v) :: rest
    else (k', v') :: odSet rest k v

/-- Python `d.update(other)` on ordered dictionaries: assign every pair of
`other` into `d`, in order. -/
def odUpdate {β : Type} (d other : List (Str × β)) : List (Str × β) :=
  other.foldl (fun acc p => odSet acc p.1 p.2) d

/-- Keys of an ordered dictionary, in order. -/
def odKeys {β : Type} (d : List (Str × β)) : List Str := d.map (·.1)

/-! ### Python values

Configuration values as they occur in the codec and the dictionaries:
`bool`, `int`, `float`, `str`, `list`, `tuple`, the custom `Path` and
`Reference` models (`tools/helpers/models`), `pandas.Timestamp`, `bytes`
(producible by `ast.literal_eval`, not in the `SectionDict` allow-list)
and `None`.  Python floats are modelled as exact decimal rationals; a
`pandas.Timestamp` is modelled by its six calendar fields. -/

/-- Model of a `pandas.Timestamp` (date plus time of day, no timezone). -/
structure PyTimestamp where
  year : Nat
  month : Nat
  day : Nat
  hour : Nat
  minute : Nat
  second : Nat
  deriving DecidableEq, Repr

/-- Python runtime values handled by the configuration subsystem. -/
inductive Value where
  | vBool (b : Bool)
  | vInt (n : Int)
  | vFloat (q : Rat)
  | vStr (s : Str)
  | vList (elems : List Value)
  | vTuple (elems : List Value)
  | vPath (data : Str)
  | vRef
  | vDate (t : PyTimestamp)
  | vBytes (s : Str)
  | vNone
  deriving Repr

mutual
/-- Structural equality test on `Value` (used only in proofs; Python `==`
between values of the same kind coincides with it on the modelled fragment). -/
def vbeq : Value → Value → Bool
  | .vBool a, .vBool b => a == b
  | .vInt a, .vInt b => a == b
  | .vFloat a, .vFloat b => a == b
  | .vStr a, .vStr b => a == b
  | .vList a, .vList b => vbeqList a b
  | .vTuple a, .vTuple b => vbeqList a b
  | .vPath a, .vPath b => a == b
  | .vRef, .vRef => true
  | .vDate a, .vDate b => a == b
  | .vBytes a, .vBytes b => a == b
  | .vNone, .vNone => true
  | _, _ => false
/-- Pointwise `vbeq` on lists of values. -/
def vbeqList : List Value → List Value → Bool
  | [], [] => true
  | a :: as, b :: bs => vbeq a b && vbeqList as bs
  | _, _ => false
end

mutual
/-- `vbeq` is reflexive. -/
theorem vbeq_refl : ∀ a : Value, vbeq a a = true
  | .vBool a => by simp [vbeq]
  | .vInt a => by simp [vbeq]
  | .vFloat a => by simp [vbeq]
  | .vStr a => by simp [vbeq]
  | .vList a => by simp [vbeq, vbeqList_refl a]
  | .vTuple a => by simp [vbeq, vbeqList_refl a]
  | .vPath a => by simp [vbeq]
  | .vRef => by simp [vbeq]
  | .vDate a => by simp [vbeq]
  | .vBytes a => by simp [vbeq]
  | .vNone => by simp [vbeq]
/-- `vbeqList` is reflexive. -/
theorem vbeqList_refl : ∀ a : List Value, vbeqList a a = true
  | [] => by simp [vbeqList]
  | a :: as => by simp [vbeqList, vbeq_refl a, vbeqList_refl as]
end

/-- Values on which `vbeq` computes `false` are distinct. -/
theorem ne_of_vbeq_false {a b : Value} (h : vbeq a b = false) : a ≠ b := by
  intro heq; rw [heq, vbeq_refl] at h; cases h

/-! ### Rendering values back to strings (Python `str` / `repr`) -/

/-- Decimal digits of a natural number (model of Python's integer rendering). -/
def natDigits (n : Nat) : Str :=
  (Nat.toDigits 10 n)

/-- Model of Python `str(int)`. -/
def intRender (n : Int) : Str :=
  if n < 0 then '-' :: natDigits n.natAbs else natDigits n.natAbs

/-- Decimal rendering of the fractional part of a non-negative rational, with
at most `digits` places and trailing zeros removed.  Supports the model of
Python `str(float)` on decimal-representable floats. -/
def fracDigits (digits : Nat) (num den : Nat) : Str :=
  match digits with
  | 0 => []
  | d + 1 =>
    if num = 0 then []
    else
      let n10 := num * 10
      let q := n10 / den
      let r := n10 % den
      let rest := fracDigits d r den
      if r = 0 then natDigits q
      else natDigits q ++ rest

/-- Model of Python `str(float)` restricted to floats whose shortest repr is a
plain decimal literal (all floats appearing in this development). -/
def floatRender (q : Rat) : Str :=
  let sign : Str := if q < 0 then ['-'] else []
  let n := q.num.natAbs
  let d := q.den
  let ip := n / d
  let fr := n % d
  let frs := fracDigits 17 fr d
  sign ++ natDigits ip ++ '.' :: (if frs.isEmpty then ['0'] else frs)

/-- Zero-padded two-digit rendering of a calendar field. -/
def pad2 (n : Nat) : Str :=
  if n < 10 then '0' :: natDigits n else natDigits n

/-- Zero-padded four-digit rendering of a year. -/
def pad4 (n : Nat) : Str :=
  if n < 10 then '0' :: '0' :: '0' :: natDigits n
  else if n < 100 then '0' :: '0' :: natDigits n
  else if n < 1000 then '0' :: natDigits n
  else natDigits n

/-- Model of Python `str(pandas.Timestamp)`: the ISO form
`YYYY-MM-DD HH:MM:SS`. -/
def tsRender (t : PyTimestamp) : Str :=
  pad4 t.year ++ '-' :: pad2 t.month ++ '-' :: pad2 t.day ++
    ' ' :: pad2 t.hour ++ ':' :: pad2 t.minute ++ ':' :: pad2 t.second

/-- Model of the default `object.__repr__` of a `Reference` instance
(`tools/helpers/models/types_models.py` defines `Reference` as an empty class);
the memory address is elided, which is sound for every claim since the
`r`-flag conversion fails on every string input. -/
def refRender : Str := strL "<Reference object>"

/-- Comma-space joining of rendered elements (Python `', '.join`). -/
def joinCommaSep : List Str → Str
  | [] => []
  | [x] => x
  | x :: xs => x ++ ',' :: ' ' :: joinCommaSep xs

mutual
/-- Model of Python `repr` on the modelled values (the form used for elements
inside rendered containers).  String quoting is modelled without escapes,
which matches every string this development renders. -/
def reprOfValue : Value → Str
  | .vBool b => if b then strL "True" else strL "False"
  | .vInt n => intRender n
  | .vFloat q => floatRender q
  | .vStr s => '\'' :: s ++ ['\'']
  | .vList xs => '[' :: joinCommaSep (reprOfValueList xs) ++ [']']
  | .vTuple xs =>
    match xs with
    | [] => strL "()"
    | [x] => '(' :: reprOfValue x ++ [',', ')']
    | x :: y :: rest =>
      '(' :: joinCommaSep (reprOfValue x :: reprOfValue y :: reprOfValueList rest) ++ [')']
  | .vPath data => strL "Path: " ++ data
  | .vRef => refRender
  | .vDate t => strL "Timestamp('" ++ tsRender t ++ strL "')"
  | .vBytes s => 'b' :: '\'' :: s ++ ['\'']
  | .vNone => strL "None"
/-- Pointwise `repr` on lists of values. -/
def reprOfValueList : List Value → List Str
  | [] => []
  | v :: vs => reprOfValue v :: reprOfValueList vs
end

/-- Model of Python `str` on the modelled values (`str` differs from `repr`
on strings, `Path` and `Timestamp`; plain objects such as `Reference` fall
back to `repr`). -/
def strOfValue : Value → Str
  | .vStr s => s
  | .vPath data => data
  | .vDate t => tsRender t
  | v => reprOfValue v

/-! ### Parsing strings back into values (Python casts and `ast.literal_eval`) -/

/-- Numeric value of a decimal digit, if the character is one. -/
def digitVal? (c : Char) : Option Nat :=
  if '0' ≤ c ∧ c ≤ '9' then some (c.toNat - 48) else none

/-- Accumulating decimal parse of a digit run. -/
def digitsToNatAux (acc : Nat) : Str → Option Nat
  | [] => some acc
  | c :: rest =>
    match digitVal? c with
    | some d => digitsToNatAux (acc * 10 + d) rest
    | none => none

/-- Parse a non-empty all-digit string into a natural number. -/
def digitsToNat? : Str → Option Nat
  | [] => none
  | s => digitsToNatAux 0 s

/-- Model of Python `int(str)`: optional surrounding whitespace, optional
sign, a digit run; `ValueError` otherwise (underscored digit groups are
outside the modelled fragment). -/
def intParse (s : Str) : Except PyErr Int :=
  let t := pyStrip s
  match t with
  | '-' :: rest =>
    match digitsToNat? rest with
    | some n => .ok (-(n : Int))
    | none => .error .valueError
  | '+' :: rest =>
    match digitsToNat? rest with
    | some n => .ok (n : Int)
    | none => .error .valueError
  | _ =>
    match digitsToNat? t with
    | some n => .ok (n : Int)
    | none => .error .valueError

/-- Longest digit run at the head of a string, and the remainder. -/
def spanDigits : Str → (Str × Str)
  | [] => ([], [])
  | c :: rest =>
    if '0' ≤ c ∧ c ≤ '9' then
      let (t, r) := spanDigits rest
      (c :: t, r)
    else ([], c :: rest)

/-- Model of Python `float(str)` restricted to plain decimal literals:
optional surrounding whitespace, optional sign, digits with at most one dot
and at least one digit; `ValueError` otherwise (exponents, `inf` and `nan`
are outside the modelled fragment). -/
def floatParse (s : Str) : Except PyErr Rat :=
  let t := pyStrip s
  let (sign, u) : Rat × Str :=
    match t with
    | '-' :: rest => (-1, rest)
    | '+' :: rest => (1, rest)
    | _ => (1, t)
  let (ip, r1) := spanDigits u
  match r1 with
  | [] =>
    match digitsToNat? ip with
    | some n => .ok (sign * (n : Rat))
    | none => .error .valueError
  | '.' :: r2 =>
    let (fp, r3) := spanDigits r2
    if r3 = [] ∧ (ip ≠ [] ∨ fp ≠ []) then
      let ipn := (digitsToNatAux 0 ip).getD 0
      let fpn := (digitsToNatAux 0 fp).getD 0
      .ok (sign * ((ipn : Rat) + (fpn : Rat) / ((10 : Rat) ^ fp.length)))
    else .error .valueError
  | _ => .error .valueError

/-- Model of `config_conversion.to_float`: optionally remove a thousands
separator, optionally replace a decimal separator with a dot, then
`float(...)`; on a non-string input with a separator configured, Python's
`str.replace` lookup raises `AttributeError` (which the codec does not
catch). -/
def toFloat (thousandSep decimalSep : Option Char) (item : Value) : Except PyErr Rat :=
  match item with
  | .vStr s =>
    let s1 := match thousandSep with
      | some c => pyRemoveChar c s
      | none => s
    let s2 := match decimalSep with
      | some c => pyReplaceChar c '.' s1
      | none => s1
    floatParse s2
  | .vInt n =>
    if thousandSep.isNone ∧ decimalSep.isNone then .ok (n : Rat) else .error .attributeError
  | .vFloat q =>
    if thousandSep.isNone ∧ decimalSep.isNone then .ok q else .error .attributeError
  | .vBool b =>
    if thousandSep.isNone ∧ decimalSep.isNone then .ok (if b then 1 else 0)
    else .error .attributeError
  | _ => .error .typeError

/-- Python truthiness (`bool(v)`) on the modelled values; `Path` is a `str`
subclass whose content is its data, `Reference` and `Timestamp` are plain
objects. -/
def pyTruthy : Value → Bool
  | .vBool b => b
  | .vInt n => n ≠ 0
  | .vFloat q => q ≠ 0
  | .vStr s => !s.isEmpty
  | .vList xs => !xs.isEmpty
  | .vTuple xs => !xs.isEmpty
  | .vPath data => !data.isEmpty
  | .vRef => true
  | .vDate _ => true
  | .vBytes s => !s.isEmpty
  | .vNone => false

/-- Model of `config_conversion.to_bool`: `False` for the string literals
`"False"` and `"None"`, otherwise Python truthiness (so also `False` for the
empty string).  Total: it never raises. -/
def toBoolV (item : Value) : Bool :=
  match item with
  | .vStr s => if s = strL "False" ∨ s = strL "None" then false else !s.isEmpty
  | v => pyTruthy v

/-- Model of `config_conversion.to_char`: first character of `str(v)`, or the
empty string. -/
def toCharV (item : Value) : Str :=
  match strOfValue item with
  | [] => []
  | c :: _ => [c]

/-- Model of `config_conversion.to_list`: render with `str`, strip
whitespace, strip every leading square bracket and every trailing one, strip
again, split on the separator, keep non-empty pieces and strip each of them.
The result is a list of strings. -/
def toListPy (sep : Char) (item : Value) : List Value :=
  let s0 := pyStrip (strOfValue item)
  let s1 := pyStrip (pyRstripChar ']' (pyLstripChar '[' s0))
  (((pySplit sep s1).filter (fun p => !p.isEmpty)).map pyStrip).map Value.vStr

/-- Model of a `pandas.to_datetime` string parse restricted to the ISO forms
`YYYY-MM-DD` and `YYYY-MM-DD HH:MM:SS` (the forms `str(Timestamp)` can
produce); `dayfirst` only disambiguates formats outside this fragment, so it
is accepted and ignored here. -/
def tsParse (dayfirst : Bool) (s : Str) : Except PyErr PyTimestamp :=
  let _ := dayfirst
  let parts := pySplit ' ' (pyStrip s)
  let parseDate (d : Str) : Option (Nat × Nat × Nat) :=
    match (pySplit '-' d).map digitsToNat? with
    | [some y, some mo, some dy] =>
      if 1 ≤ mo ∧ mo ≤ 12 ∧ 1 ≤ dy ∧ dy ≤ 31 then some (y, mo, dy) else none
    | _ => none
  let parseTime (t : Str) : Option (Nat × Nat × Nat) :=
    match (pySplit ':' t).map digitsToNat? with
    | [some h, some mi, some sec] =>
      if h ≤ 23 ∧ mi ≤ 59 ∧ sec ≤ 59 then some (h, mi, sec) else none
    | _ => none
  match parts with
  | [d] =>
    match parseDate d with
    | some (y, mo, dy) => .ok ⟨y, mo, dy, 0, 0, 0⟩
    | none => .error .valueError
  | [d, t] =>
    match parseDate d, parseTime t with
    | some (y, mo, dy), some (h, mi, sec) => .ok ⟨y, mo, dy, h, mi, sec⟩
    | _, _ => .error .valueError
  | _ => .error .valueError

/-! ### A model of `ast.literal_eval`

A fuel-indexed recursive-descent evaluator for Python literal expressions:
numbers, single- or double-quoted strings without escapes, `True`, `False`,
`None`, bytes literals, lists, tuples and parenthesized expressions.  The
exotic literal forms the source never stores (dicts, sets, exponents,
escapes) are outside the fragment and make the evaluator fail, as malformed
input makes `ast.literal_eval` raise. -/

/-- Drop leading whitespace. -/
def levSkipWs (s : Str) : Str := s.dropWhile pyIsSpace

/-- Take characters up to an unescaped closing quote. -/
def levTakeString (quote : Char) : Str → Option (Str × Str)
  | [] => none
  | c :: rest =>
    if c == quote then some ([], rest)
    else if c == '\\' then none
    else
      match levTakeString quote rest with
      | some (t, r) => some (c :: t, r)
      | none => none

/-- Parse a number at the head of the string (sign already consumed). -/
def levNumber (neg : Bool) (s : Str) : Option (Value × Str) :=
  let (ip, r1) := spanDigits s
  match r1 with
  | '.' :: r2 =>
    let (fp, r3) := spanDigits r2
    if ip = [] ∧ fp = [] then none
    else
      let ipn := (digitsToNatAux 0 ip).getD 0
      let fpn := (digitsToNatAux 0 fp).getD 0
      let q : Rat := (ipn : Rat) + (fpn : Rat) / ((10 : Rat) ^ fp.length)
      some (.vFloat (if neg then -q else q), r3)
  | _ =>
    match digitsToNat? ip with
    | some n => some (.vInt (if neg then -(n : Int) else (n : Int)), r1)
    | none => none

mutual
/-- Parse one literal value; returns the value and the unconsumed suffix. -/
def levValue : Nat → Str → Option (Value × Str)
  | 0, _ => none
  | fuel + 1, s =>
    match levSkipWs s with
    | [] => none
    | c :: rest =>
      if c == '[' then
        match levElems fuel (levSkipWs rest) ']' with
        | some (vs, _, r) => some (.vList vs, r)
        | none => none
      else if c == '(' then
        match levElems fuel (levSkipWs rest) ')' with
        | some ([v], false, r) => some (v, r)
        | some (vs, _, r) => some (.vTuple vs, r)
        | none => none
      else if c == '\'' ∨ c == '\"' then
        match levTakeString c rest with
        | some (t, r) => some (.vStr t, r)
        | none => none
      else if c == '-' then
        match levNumber true (levSkipWs rest) with
        | some (v, r) => some (v, r)
        | none => none
      else if c == '+' then
        match levNumber false (levSkipWs rest) with
        | some (v, r) => some (v, r)
        | none => none
      else if c == 'b' then
        match rest with
        | q :: rest' =>
          if q == '\'' ∨ q == '\"' then
            match levTakeString q rest' with
            | some (t, r) => some (.vBytes t, r)
            | none => none
          else none
        | [] => none
      else if c == 'T' then
        match rest with
        | 'r' :: 'u' :: 'e' :: r => some (.vBool true, r)
        | _ => none
      else if c == 'F' then
        match rest with
        | 'a' :: 'l' :: 's' :: 'e' :: r => some (.vBool false, r)
        | _ => none
      else if c == 'N' then
        match rest with
        | 'o' :: 'n' :: 'e' :: r => some (.vNone, r)
        | _ => none
      else
        levNumber false (c :: rest)

/-- Parse a possibly empty, comma-separated element list up to the closing
bracket; also reports whether a comma was seen (to distinguish `(1)` from
`(1,)`). -/
def levElems : Nat → Str → Char → Option (List Value × Bool × Str)
  | 0, _, _ => none
  | fuel + 1, s, close =>
    match levSkipWs s with
    | [] => none
    | c :: rest =>
      if c == close then some ([], false, rest)
      else
        match levValue fuel (c :: rest) with
        | some (v, r) =>
          match levSkipWs r with
          | ',' :: r2 =>
            match levElems fuel r2 close with
            | some (vs, _, r3) => some (v :: vs, true, r3)
            | none => none
          | c2 :: r2 =>
            if c2 == close then some ([v], false, r2) else none
          | [] => none
        | none => none
end

/-- Model of `ast.literal_eval` on a string: parse one literal and require
only whitespace after it; failure raises `ValueError` (the model folds
`SyntaxError` into it, both are caught by the codec's handler). -/
def litEval (s : Str) : Except PyErr Value :=
  match levValue (s.length + 1) s with
  | some (v, r) => if levSkipWs r = [] then .ok v else .error .valueError
  | none => .error .valueError

/-! ### The conversion table (`config_conversion.CONVERSION_DICT`) -/

/-- Conversion for the `d` and `i` flags: Python `int(...)`. -/
def intConv (item : Value) : Except PyErr Value :=
  match item with
  | .vStr s => (intParse s).map .vInt
  | .vInt n => .ok (.vInt n)
  | .vBool b => .ok (.vInt (if b then 1 else 0))
  | .vFloat q => .ok (.vInt (if q ≥ 0 then ⌊q⌋ else ⌈q⌉))
  | _ => .error .typeError

/-- Conversion for the `p` flag: the `Path` constructor accepts strings,
`Path` instances and `None` only (`_BasePath` sets `_ALLOW_CASTING = False`),
raising `TypeError` otherwise. -/
def pathConv (item : Value) : Except PyErr Value :=
  match item with
  | .vStr s => .ok (.vPath s)
  | .vPath d => .ok (.vPath d)
  | _ => .error .typeError

/-- Conversion for the `date` and `datedb` flags: `pandas.to_datetime`
restricted to the modelled string forms (a `Timestamp` passes through;
non-date inputs outside the fragment are errors). -/
def dateConv (dayfirst : Bool) (item : Value) : Except PyErr Value :=
  match item with
  | .vStr s => (tsParse dayfirst s).map .vDate
  | .vDate t => .ok (.vDate t)
  | _ => .error .typeError

/-- Conversion for the `auto` flag: `ast.literal_eval`, which raises
`ValueError` on a non-string argument. -/
def autoConv (item : Value) : Except PyErr Value :=
  match item with
  | .vStr s => litEval s
  | _ => .error .valueError

/-- Dispatch of `FILE_TO_KEY.get(key, str)`: the conversion function of each
flag of `CONVERSION_DICT`, with plain `str(...)` as the default for unknown
flags.  The `r` flag applies the `Reference` class, which is defined with no
constructor arguments (`types_models.py`), so it raises `TypeError` on every
input. -/
def convApply (flag : Str) (item : Value) : Except PyErr Value :=
  if flag == strL "b" then .ok (.vBool (toBoolV item))
  else if flag == strL "d" ∨ flag == strL "i" then intConv item
  else if flag == strL "ftws" then (toFloat (some ' ') none item).map .vFloat
  else if flag == strL "ftc" then (toFloat (some ',') none item).map .vFloat
  else if flag == strL "fdc" then (toFloat none (some ',') item).map .vFloat
  else if flag == strL "fdd" then (toFloat none (some '.') item).map .vFloat
  else if flag == strL "ftwsdc" then (toFloat (some ' ') (some ',') item).map .vFloat
  else if flag == strL "f" then (toFloat none none item).map .vFloat
  else if flag == strL "p" then pathConv item
  else if flag == strL "r" then .error .typeError
  else if flag == strL "c" then .ok (.vStr (toCharV item))
  else if flag == strL "s" then .ok (.vStr (strOfValue item))
  else if flag == strL "date" then dateConv false item
  else if flag == strL "datedb" then dateConv true item
  else if flag == strL "auto" then autoConv item
  else if flag == strL "lc" then .ok (.vList (toListPy ',' item))
  else if flag == strL "lsc" then .ok (.vList (toListPy ';' item))
  else if flag == strL "ls" then .ok (.vList (toListPy '/' item))
  else if flag == strL "lbs" then .ok (.vList (toListPy '\\' item))
  else if flag == strL "lnl" then .ok (.vList (toListPy '\n' item))
  else if flag == strL "ld" then .ok (.vList (toListPy '.' item))
  else if flag == strL "lws" then .ok (.vList (toListPy ' ' item))
  else if flag == strL "l" then .ok (.vList (toListPy ',' item))
  else if flag == strL "t" then .ok (.vTuple (toListPy ',' item))
  else .ok (.vStr (strOfValue item))

/-- The flag names of `CONVERSION_DICT`, in table order. -/
def conversionFlagNames : List Str :=
  [strL "b", strL "d", strL "i", strL "ftws", strL "ftc", strL "fdc",
   strL "fdd", strL "ftwsdc", strL "f", strL "p", strL "r", strL "c",
   strL "s", strL "date", strL "datedb", strL "auto", strL "lc", strL "lsc",
   strL "ls", strL "lbs", strL "lnl", strL "ld", strL "lws", strL "l",
   strL "t"]

/-- Model of `KEY_TO_FILE.get(type(v), KEY_TO_FILE.get(object, None) if auto
else None)`: the encoding flag chosen for a runtime type.  For a type with
several table entries the last one wins (`int` maps to `i`, `float` to `f`,
`str` to `s`, `Timestamp` to `datedb`); `list` and `tuple` are overridden to
the `auto` flag; types absent from the table (`NoneType`, `bytes`) fall back
to the `object` entry `auto` when `auto` is requested, else to no flag. -/
def keyToFile (auto : Bool) (v : Value) : Option Str :=
  match v with
  | .vBool _ => some (strL "b")
  | .vInt _ => some (strL "i")
  | .vFloat _ => some (strL "f")
  | .vStr _ => some (strL "s")
  | .vPath _ => some (strL "p")
  | .vRef => some (strL "r")
  | .vDate _ => some (strL "datedb")
  | .vList _ => some (strL "auto")
  | .vTuple _ => some (strL "auto")
  | .vBytes _ => if auto then some (strL "auto") else none
  | .vNone => if auto then some (strL "auto") else none

/-- Model of `config_conversion._add_flags_to_key` for the zero-or-one flag
the encoder produces, with the default delimiters `@` and `-`. -/
def addFlagsToKey (key : Str) (flag : Option Str) : Str :=
  match flag with
  | none => key
  | some f => '@' :: f ++ '-' :: key

/-- Model of `config_conversion.convert_dict_to_str` (with its default
`auto=True`): flag each key by the value's runtime type and render the value
with `str`. -/
def convertDictToStr (auto : Bool) (d : List (Str × Value)) : List (Str × Str) :=
  d.foldl (fun acc p => odSet acc (addFlagsToKey p.1 (keyToFile auto p.2)) (strOfValue p.2)) []

/-! ### Key parsing (`config_conversion._parse_key`) -/

/-- Characters allowed in a flag token (regex class `[a-z0-9]`). -/
def isFlagChar (c : Char) : Bool :=
  ('a' ≤ c ∧ c ≤ 'z') ∨ ('0' ≤ c ∧ c ≤ '9')

/-- Longest flag-character run at the head of a string, and the remainder. -/
def spanFlagTok : Str → (Str × Str)
  | [] => ([], [])
  | c :: rest =>
    if isFlagChar c then
      let (t, r) := spanFlagTok rest
      (c :: t, r)
    else ([], c :: rest)

/-- One step of the anchored pattern `^@([a-z0-9]+)-`: the flag token and the
rest of the key, if the key starts with a delimited flag. -/
def stripOneFlag : Str → Option (Str × Str)
  | '@' :: rest =>
    match spanFlagTok rest with
    | ([], _) => none
    | (tok, r) =>
      match r with
      | '-' :: r' => some (tok, r')
      | _ => none
  | _ => none

/-- Fuel-indexed repetition of `stripOneFlag` (the `while found` loop of
`_parse_key`); each iteration consumes at least three characters, so the
string length is enough fuel. -/
def parseKeyAux : Nat → Str → Str × List Str
  | 0, s => (s, [])
  | fuel + 1, s =>
    match stripOneFlag s with
    | none => (s, [])
    | some (tok, rest) =>
      let (k, fs) := parseKeyAux fuel rest
      (k, tok :: fs)

/-- Model of `config_conversion._parse_key` with the default delimiters: the
bare key and the list of stripped flags in order (Python returns `None`
instead of an empty list; both are falsy and treated identically by the
caller, so the model uses `[]`). -/
def parseKey (s : Str) : Str × List Str := parseKeyAux s.length s

/-! ### Single- and multiple-flag conversion (`_single_item_conversion`,
`_multiple_item_conversion`) -/

/-- Python `isiterable` (`tools/helpers/utils`): `isinstance(v, (tuple, list,
set))`; the model has no sets. -/
def isIterV : Value → Bool
  | .vList _ => true
  | .vTuple _ => true
  | _ => false

/-- Container membership filter used by `drop_none`. -/
def filterNoneElems : Value → Value
  | .vList xs => .vList (xs.filter fun v => match v with | .vNone => false | _ => true)
  | .vTuple xs => .vTuple (xs.filter fun v => match v with | .vNone => false | _ => true)
  | v => v

/-- Post-processing inside the `try` block of `_single_item_conversion`:
`drop_none` filters `None` out of iterable results, `drop_empty_iterable`
replaces falsy results by `None`. -/
def sicPost (dropNone dropEmpty : Bool) (v : Value) : Value :=
  let v1 := if dropNone ∧ isIterV v then filterNoneElems v else v
  if dropEmpty ∧ !pyTruthy v1 then .vNone else v1

/-- The `except (ValueError, TypeError, SyntaxError)` handler of
`_single_item_conversion`: `ignore` returns the original item, `drop`
returns `None`, `auto-conversion` falls back to `ast.literal_eval` of the
original item (returning the item again when that also fails), anything else
re-raises; exceptions outside the caught tuple (e.g. `AttributeError`)
propagate regardless of policy. -/
def sicHandle (errp : Str) (item : Value) : Except PyErr Value → Except PyErr Value
  | .ok v => .ok v
  | .error e =>
    if e = .valueError ∨ e = .typeError ∨ e = .syntaxError then
      if errp = strL "ignore" then .ok item
      else if errp = strL "drop" then .ok .vNone
      else if errp = strL "auto-conversion" then
        match item with
        | .vStr s =>
          match litEval s with
          | .ok v => .ok v
          | .error _ => .ok item
        | _ => .ok item
      else .error e
    else .error e

mutual
/-- Model of `config_conversion._single_item_conversion`: a `None` key
bypasses conversion; a `None` item is returned as is; iterable items are
converted elementwise, rebuilding the same container type; other items go
through the flag's conversion function; errors are handled per the `error`
policy. -/
def singleItemConversion (key : Option Str) (errp : Str) (dropNone dropEmpty : Bool) :
    Value → Except PyErr Value
  | .vNone =>
    match key with
    | none => .ok .vNone
    | some _ => .ok .vNone
  | .vList xs =>
    match key with
    | none => .ok (.vList xs)
    | some fl =>
      sicHandle errp (.vList xs)
        ((sicElems fl errp dropNone dropEmpty xs).map
          (fun ys => sicPost dropNone dropEmpty (.vList ys)))
  | .vTuple xs =>
    match key with
    | none => .ok (.vTuple xs)
    | some fl =>
      sicHandle errp (.vTuple xs)
        ((sicElems fl errp dropNone dropEmpty xs).map
          (fun ys => sicPost dropNone dropEmpty (.vTuple ys)))
  | other =>
    match key with
    | none => .ok other
    | some fl =>
      sicHandle errp other
        ((convApply fl other).map (sicPost dropNone dropEmpty))
/-- Elementwise recursion of `_single_item_conversion` over a container. -/
def sicElems (fl : Str) (errp : Str) (dropNone dropEmpty : Bool) :
    List Value → Except PyErr (List Value)
  | [] => .ok []
  | x :: xs =>
    match singleItemConversion (some fl) errp dropNone dropEmpty x with
    | .error e => .error e
    | .ok y =>
      match sicElems fl errp dropNone dropEmpty xs with
      | .error e => .error e
      | .ok ys => .ok (y :: ys)
end

/-- Left-to-right flag application of
`_process_multiple_item_conversion` (the innermost call converts with the
first flag). -/
def processMIC (errp : Str) (dropNone dropEmpty : Bool) (item : Value)
    (flags : List Str) : Except PyErr Value :=
  flags.foldlM (fun acc f => singleItemConversion (some f) errp dropNone dropEmpty acc) item

/-- Model of `config_conversion._multiple_item_conversion`: an empty flag
list returns the item unchanged; `ascendant` reverses the application
order. -/
def multipleItemConversion (errp : Str) (dropNone dropEmpty ascendant : Bool)
    (item : Value) (flags : List Str) : Except PyErr Value :=
  if flags.isEmpty then .ok item
  else
    let fs := if ascendant then flags.reverse else flags
    processMIC errp dropNone dropEmpty item fs

/-! ### Batch conversion (`_no_flag_handling`, `_handle_duplicates`,
`convert_dict_from_str`) -/

/-- Model of `config_conversion._no_flag_handling`: `ignore` keeps the key
with no flags, `drop` discards it (`none`), `auto-conversion` assigns the
`auto` flag, anything else raises `ValueError`. -/
def noFlagHandling (policy : Str) : Except PyErr (Option (List Str))  :=
  if policy = strL "ignore" then .ok (some [])
  else if policy = strL "drop" then .ok none
  else if policy = strL "auto-conversion" then .ok (some [strL "auto"])
  else .error .valueError

/-- Smallest `N ≥ 1` such that `key_N` is not yet a key of the dictionary
(the `while exists` loop of `_handle_duplicates`); a fresh suffix always
exists among the first `len + 1` candidates. -/
def renameKey (dico : List (Str × Value)) (key : Str) : Str :=
  let i := (((List.range (dico.length + 1)).map (· + 1)).find?
    (fun i => !odMem dico (key ++ '_' :: natDigits i))).getD (dico.length + 1)
  key ++ '_' :: natDigits i

/-- Model of `config_conversion._handle_duplicates` applied in place: `first`
keeps the earliest entry, `last` overwrites (keeping the original position),
`rename` appends a fresh `_N`-suffixed key, anything else raises
`ValueError`. -/
def handleDuplicates (dico : List (Str × Value)) (key : Str) (value : Value)
    (flag : Str) : Except PyErr (List (Str × Value)) :=
  if odMem dico key then
    if flag = strL "first" then .ok dico
    else if flag = strL "last" then .ok (odSet dico key value)
    else if flag = strL "rename" then .ok (odSet dico (renameKey dico key) value)
    else .error .valueError
  else .ok (odSet dico key value)

/-- Model of `config_conversion.convert_dict_from_str`: parse each key's
flags, apply the no-flag policy, convert the value through the flags, and
insert the result subject to the duplicate policy.  With
`allow_multiple=False` a parsed flag list is collapsed to its first element,
a bare string, on which `_multiple_item_conversion`'s `isinstance` check
raises `TypeError`. -/
def convertDictFromStr (allowMultiple : Bool) (errp : Str)
    (dropNone dropEmpty ascendant : Bool) (noFlag : Str) (dups : Str)
    (dico : List (Str × Value)) : Except PyErr (List (Str × Value)) :=
  dico.foldlM (fun acc p => do
    let (nk, flags) := parseKey p.1
    if ¬allowMultiple ∧ ¬flags.isEmpty then
      .error .typeError
    else
      match ← (if flags.isEmpty then noFlagHandling noFlag else pure (some flags)) with
      | none => pure acc
      | some fs => do
        let nv ← multipleItemConversion errp dropNone dropEmpty ascendant p.2 fs
        match nv, dropNone with
        | .vNone, true => pure acc
        | _, _ => handleDuplicates acc nk nv dups) []

/-! ### `SectionDict` (`config_dict.py`)

A `SectionDict` is the ordered mapping held in the `_cfg` attribute: keys
normalized by `to_key`, values restricted to the allow-list.  The policy
mapping keeps its construction-time defaults in every modelled scenario, and
`deepcopy` of immutable model values is the identity.  The `auto_cast`
branch of `_new` (used only when decoding a file through `configparser`) is
not modelled: every modelled call site passes `auto_cast=False`. -/

/-- The contents of a `SectionDict`. -/
abbrev SectionDict := List (Str × Value)

/-- Model of `SectionDict._check_allowed_value_type` with the default
policies: `None` is allowed (`forbid_none_value` is `False`), instances of
`_ALLOWED_TYPES = (str, int, float, list, tuple, Path, Reference,
datetime.datetime)` are allowed (`bool` is an `int` subclass and `Timestamp`
a `datetime` subclass), anything else — here `bytes` — is rejected. -/
def checkAllowedValueType : Value → Bool
  | .vBytes _ => false
  | _ => true

/-- Model of the dict branch of `SectionDict._new` (with
`auto_cast=False`): normalize each key with `to_key`, drop pairs with a
disallowed value or an empty normalized key (logged, not raised), drop a key
whose normalized form already occurred, and copy values (the identity
here). -/
def sdNew (d : List (Str × Value)) : SectionDict :=
  d.foldl (fun acc p =>
    let nk := toKey p.1
    if !checkAllowedValueType p.2 ∨ nk.isEmpty then acc
    else if odMem acc nk then acc
    else acc ++ [(nk, p.2)]) []

/-- Model of `SectionDict._build`: run the input through `_new` and update
the current contents with it, clearing first unless `update` is set. -/
def sdBuild (cur : SectionDict) (d : List (Str × Value)) (update : Bool) : SectionDict :=
  odUpdate (if update then cur else []) (sdNew d)

/-- Model of `utils.merge_dict_preprocessing`: the key list to take from the
right dictionary and whether to update in place (`true`) or clear first
(`false`).  An unrecognized `how` is logged and yields `(None, None)`,
modelled as `none`.  Python's set operations iterate in unspecified order;
the model fixes left-dictionary order for intersections and right-dictionary
order for differences, which no modelled claim observes. -/
def mergeDictPreprocessing {α β : Type} (left : List (Str × α))
    (right : List (Str × β)) (how : Option Str) : Option (List Str × Bool) :=
  if how == some (strL "left") then
    some ((odKeys left).filter (fun k => odMem right k), true)
  else if how == some (strL "inner") then
    some ((odKeys left).filter (fun k => odMem right k), false)
  else if how == some (strL "rightanti") ∨ how == some (strL "right_anti") then
    some ((odKeys right).filter (fun k => !odMem left k), false)
  else if how == some (strL "right") ∨ how == some (strL "replace") then
    some (odKeys right, false)
  else if how == some (strL "outer") ∨ how == some (strL "update") then
    some (odKeys right, true)
  else if how == some (strL "append") then
    some ((odKeys right).filter (fun k => !odMem left k), true)
  else if how == some (strL "none") ∨ how == none then
    some ([], true)
  else if how == some (strL "clear") then
    some ([], false)
  else none

/-- The dictionary comprehension of `SectionDict._merge_dict`:
`{k: right_dict[k] for k in keys}`.  The preprocessing only selects keys
present in `right`, so the `getD` default is never reached. -/
def sdMergeBatch (right : SectionDict) (keys : List Str) : SectionDict :=
  keys.map (fun k => (k, (odLookup right k).getD Value.vNone))

/-- Model of `SectionDict.merge` / `SectionDict._merge_dict`: preprocess the
key set, then rebuild through `_build`.  When the preprocessing returns
`(None, None)` the comprehension iterates `None` and raises `TypeError`. -/
def sdMerge (self right : SectionDict) (how : Option Str) : Except PyErr SectionDict :=
  match mergeDictPreprocessing self right how with
  | none => .error .typeError
  | some (keys, update) => .ok (sdBuild self (sdMergeBatch right keys) update)

/-! ### `ConfigDict` (`config_dict.py`) -/

/-- A `ConfigDict`: ordered sections plus the `_default_section` and
`_section` pointers. -/
structure ConfigDict where
  cfg : List (Str × SectionDict)
  defaultSectionPtr : Option Str
  sectionPtr : Option Str
  deriving Repr

/-- Replace the value stored at the first occurrence of a key (the in-place
mutation of a stored `SectionDict` object). -/
def cdModify (cfg : List (Str × SectionDict)) (k : Str) (g : SectionDict → SectionDict) :
    List (Str × SectionDict) :=
  match cfg with
  | [] => []
  | (k', v) :: rest =>
    if k' = k then (k', g v) :: rest
    else (k', v) :: cdModify rest k g

/-- Model of `ConfigDict._format_config_dict` (with `auto_cast=False`):
normalize each section name with `to_section` and build a `SectionDict` from
each body; a duplicate normalized name keeps the first position and the last
body. -/
def cdFormatConfigDict (raw : List (Str × List (Str × Value))) :
    List (Str × SectionDict) :=
  raw.foldl (fun acc p => odSet acc (toSection p.1) (sdNew p.2)) []

/-- Model of `ConfigDict.get_section` with `set_section=False` (a pure
read): normalize the argument, fall back to the default-section pointer on
`None`, and return `None` when the resolved name is not a section. -/
def cdGetSectionRead (cd : ConfigDict) (sec : Option Str) : Option SectionDict :=
  let s0 := sec.map toSection
  let s1 := match s0 with
    | none => cd.defaultSectionPtr
    | some s => some s
  match s1 with
  | none => none
  | some s => odLookup cd.cfg s

/-- Model of `ConfigDict.add_section`: a fresh section is built from the
given body and appended; an existing name leaves the sections unchanged
(`exist_ok` only controls logging); `set_section` also moves the section
pointer. -/
def cdAddSection (cd : ConfigDict) (s : Str) (sd : List (Str × Value))
    (setSection : Bool) : ConfigDict :=
  let sn := toSection s
  let cfg1 := if odMem cd.cfg sn then cd.cfg else odSet cd.cfg sn (sdNew sd)
  { cfg := cfg1
    defaultSectionPtr := cd.defaultSectionPtr
    sectionPtr := if setSection then some sn else cd.sectionPtr }

/-- Model of the `ConfigDict.section` property setter: a non-existent name
is logged as an error and leaves the pointer unchanged. -/
def cdSetSection (cd : ConfigDict) (name : Option Str) : ConfigDict :=
  match name with
  | none => { cd with sectionPtr := none }
  | some n =>
    let nn := toSection n
    if odMem cd.cfg nn then { cd with sectionPtr := some nn }
    else cd

/-- Model of the `ConfigDict.default_section` property setter: a
non-existent name is auto-created as an empty section, then the pointer is
set. -/
def cdSetDefaultSection (cd : ConfigDict) (name : Option Str) : ConfigDict :=
  match name with
  | none => { cd with defaultSectionPtr := none }
  | some n =>
    let nn := toSection n
    let cd1 := if odMem cd.cfg nn then cd else cdAddSection cd nn [] false
    { cd1 with defaultSectionPtr := some nn }

/-- Model of `ConfigDict.clear`: with a section name present, that section's
contents are cleared; with `None`, all sections are removed while both
pointers are left untouched; otherwise nothing changes. -/
def cdClear (cd : ConfigDict) (sec : Option Str) : ConfigDict :=
  match sec with
  | some s =>
    if odMem cd.cfg s then { cd with cfg := cdModify cd.cfg (toSection s) (fun _ => []) }
    else cd
  | none => { cd with cfg := [] }

/-- Model of the `ConfigDict` constructor: `dico=None` gives an empty
mapping; otherwise `_build` formats the sections and then applies the
`section` and `default_section` setters in that order, each skipped when the
argument is the `_WILDCARD` (the outer `none` here). -/
def cdOfRaw (raw : Option (List (Str × List (Str × Value))))
    (defaultSectionArg sectionArg : Option (Option Str)) : ConfigDict :=
  match raw with
  | none => ⟨[], none, none⟩
  | some d =>
    let cd1 : ConfigDict := ⟨cdFormatConfigDict d, none, none⟩
    let cd2 := match sectionArg with
      | none => cd1
      | some a => cdSetSection cd1 a
    match defaultSectionArg with
    | none => cd2
    | some a => cdSetDefaultSection cd2 a

/-- `ConfigDict(dico)` with the default wildcard pointer arguments. -/
def cdOfDict (raw : List (Str × List (Str × Value))) : ConfigDict :=
  cdOfRaw (some raw) none none

/-- Model of the membership test `True in ls` for a list of `SectionDict`
objects (`ConfigDict.isempty`): Python compares `sd == True` for each
element, which calls `SectionDict.__eq__(sd, True)`; that constructs
`SectionDict(True)`, whose `_new` returns `None` for a non-dict input and
whose `_build` then calls `OrderedDict().update(None)`, raising `TypeError`.
So the test is `False` on an empty list and raises on any non-empty one. -/
def pyTrueInSectionList : List SectionDict → Except PyErr Bool
  | [] => .ok false
  | _ :: _ => .error .typeError

/-- Model of the `ConfigDict.isempty` property:
`not (True in [ele for ele in self.values()])`. -/
def cdIsEmpty (cd : ConfigDict) : Except PyErr Bool := do
  let b ← pyTrueInSectionList (cd.cfg.map (·.2))
  return !b

/-- Model of `ConfigDict.merge_config_dict`: preprocess the section-name
set with `how` (clearing the left sections when `update` is false), then
for each selected name merge the existing section with `how_section`
(defaulting to `how`) or add the right section wholesale.  A `(None, None)`
preprocessing result makes the `for` loop iterate `None` and raise
`TypeError`. -/
def cdMergeConfigDict (left right : ConfigDict) (how howSection : Option Str) :
    Except PyErr ConfigDict :=
  let howSec := match howSection with
    | none => how
    | some h => some h
  match mergeDictPreprocessing left.cfg right.cfg how with
  | none => .error .typeError
  | some (keys, update) =>
    let left1 := if !update then { left with cfg := [] } else left
    keys.foldlM (fun acc k =>
      if odMem acc.cfg k then do
        let rsec := (cdGetSectionRead right (some k)).getD []
        let lsec := (odLookup acc.cfg (toSection k)).getD []
        let merged ← sdMerge lsec rsec howSec
        .ok { acc with cfg := cdModify acc.cfg (toSection k) (fun _ => merged) }
      else
        .ok (cdAddSection acc k ((cdGetSectionRead right (some k)).getD []) false)) left1

/-- Model of `ConfigDict.merge` on an already-built right `ConfigDict`
(`deepcopy_right` copies immutable model values, the identity here); the
in-place and copying variants coincide in the functional model. -/
def cdMerge (self other : ConfigDict) (how howSection : Option Str) :
    Except PyErr ConfigDict :=
  cdMergeConfigDict self other how howSection

/-- Model of `ConfigDict.merge` on a raw mapping: a non-`ConfigDict`
argument is first wrapped by the `ConfigDict` constructor. -/
def cdMergeRaw (self : ConfigDict) (raw : List (Str × List (Str × Value)))
    (how howSection : Option Str) : Except PyErr ConfigDict :=
  cdMergeConfigDict self (cdOfDict raw) how howSection

/-! ### `_Config` (`config_models.py`)

The modelled state holds the live `ConfigDict`, the default `ConfigDict`
and the `search_in_default_config` policy.  The file paths, the
`temp_config` override and the counters play no role in the modelled
claims. -/

/-- The modelled `_Config` state. -/
structure ConfigState where
  ccfg : ConfigDict
  dcfg : ConfigDict
  searchInDefaultConfig : Bool
  deriving Repr

/-- Model of `_Config.add_default_config_sections`: its conditional is
inverted (`... if sections is None else dico`), so with a named section the
`n_dico` merged with `how='append'` is the WHOLE default config, and with
`sections=None` the expression `sections & dico` raises `TypeError`. -/
def cfgAddDefaultConfigSections (st : ConfigState) (sections : Option Str) :
    Except PyErr ConfigState :=
  match sections with
  | none => .error .typeError
  | some _ => do
    let merged ← cdMergeConfigDict st.ccfg st.dcfg (some (strL "append")) none
    .ok { st with ccfg := merged }

/-- Model of `_Config._check_section`: normalize the name; when it names no
existing section and `search_in_default_config` holds, import the default
config (see `cfgAddDefaultConfigSections`). -/
def cfgCheckSection (st : ConfigState) (sec : Option Str) (searchArg : Option Bool) :
    Except PyErr (ConfigState × Option Str) :=
  let s := sec.map toSection
  let policy := searchArg.getD st.searchInDefaultConfig
  match s with
  | none => .ok (st, none)
  | some sn =>
    if ¬(odKeys st.ccfg.cfg).contains sn ∧ policy then do
      let st1 ← cfgAddDefaultConfigSections st (some sn)
      .ok (st1, some sn)
    else .ok (st, some sn)

/-- Model of `_Config.get_section` with the read-only defaults
(`set_section=False`, `add_section=False`): check/materialize the section,
then read it from the live config. -/
def cfgGetSection (st : ConfigState) (sec : Option Str) (searchArg : Option Bool) :
    Except PyErr (ConfigState × Option SectionDict) := do
  let (st1, s) ← cfgCheckSection st sec searchArg
  .ok (st1, cdGetSectionRead st1.ccfg s)

/-- Model of `_Config.__call__` — the call-style read
`config(section, key, default)`.  A missing `section` argument defaults to
the live config's default-section pointer.  Each membership test uses the
raw key against a section's stored keys (the `in` operator falls back to
iteration) while the returned value goes through `SectionDict.__getitem__`,
which normalizes the key; `key in None` raises `TypeError` when a consulted
section does not resolve.  The third and fourth levels both require the
`search_in_default_config` policy. -/
def cfgCall (st : ConfigState) (sectionArg : Option Str) (key : Str)
    (dflt : Option Value) : Except PyErr (ConfigState × Value) := do
  let sec : Option Str := match sectionArg with
    | some s => some s
    | none => st.ccfg.defaultSectionPtr
  let (st1, osec1) ← cfgGetSection st sec none
  match osec1 with
  | none => .error .typeError
  | some sd1 =>
    if odMem sd1 key then
      match odLookup sd1 (toKey key) with
      | some v => .ok (st1, v)
      | none => .error .keyError
    else do
      let (st2, osec2) ← cfgGetSection st1 st1.ccfg.defaultSectionPtr none
      match osec2 with
      | none => .error .typeError
      | some sd2 =>
        if odMem sd2 key then
          match odLookup sd2 (toKey key) with
          | some v => .ok (st2, v)
          | none => .error .keyError
        else
          match cdGetSectionRead st2.dcfg sec with
          | none => .error .typeError
          | some dsd =>
            if odMem dsd key ∧ st2.searchInDefaultConfig then
              match odLookup dsd (toKey key) with
              | some v => .ok (st2, v)
              | none => .error .keyError
            else
              match cdGetSectionRead st2.dcfg st2.ccfg.defaultSectionPtr with
              | none => .error .typeError
              | some dsd2 =>
                if odMem dsd2 key ∧ st2.searchInDefaultConfig then
                  match cdGetSectionRead st2.dcfg st2.dcfg.defaultSectionPtr with
                  | none => .error .typeError
                  | some dsd3 =>
                    match odLookup dsd3 (toKey key) with
                    | some v => .ok (st2, v)
                    | none => .error .keyError
                else
                  match dflt with
                  | some d => .ok (st2, d)
                  | none => .error .keyError

/-- Model of `_Config.reload_default` with its default arguments, reduced to
its effect on the modelled state: merge the (deep-copied) default config
into the live config with `how='right'`; the path reset and the optional
save touch only the file system. -/
def cfgReloadDefault (st : ConfigState) : Except PyErr ConfigState := do
  let merged ← cdMergeConfigDict st.ccfg st.dcfg (some (strL "right")) none
  .ok { st with ccfg := merged }

/-- Model of `_Config.load`.  The file system is abstracted into
`pathIsFile` (whether the resolved path is a file) and `decoded` (the
`ConfigDict` produced by `read_config`, `none` when reading failed).  The
branch chain follows the source: after the `None` check, `elif path.isfile`
is necessarily taken (the same test guarded entry), so the
`config_dict.isempty` branch and the final `UnknownError` are dead code,
kept here as in the source. -/
def cfgLoad (st : ConfigState) (pathIsFile : Bool) (decoded : Option ConfigDict)
    (forceLoad loadEmpty : Bool) (mergeHow : Option Str) : Except PyErr ConfigState :=
  if !pathIsFile then
    if forceLoad then cfgReloadDefault st else .ok st
  else
    match decoded with
    | none => if forceLoad then cfgReloadDefault st else .ok st
    | some cd =>
      if pathIsFile then do
        let merged ← cdMergeConfigDict st.ccfg cd mergeHow none
        .ok { st with ccfg := merged }
      else
        match cdIsEmpty cd with
        | .error e => .error e
        | .ok true =>
          if !loadEmpty then .ok st
          else do
            let merged ← cdMergeConfigDict st.ccfg cd mergeHow none
            .ok { st with ccfg := merged }
        | .ok false => .error .unknownError

/-! ### Derived predicates and specification-side definitions -/

/-- A pointer is empty or names an existing section. -/
def ptrOkB (cfg : List (Str × SectionDict)) : Option Str → Bool
  | none => true
  | some s => odMem cfg s

/-- The pointer invariant of a `ConfigDict`: both the `section` and the
`default_section` pointer are empty or name an existing section. -/
def cdInv (cd : ConfigDict) : Bool :=
  ptrOkB cd.cfg cd.sectionPtr && ptrOkB cd.cfg cd.defaultSectionPtr

/-- The `how` arguments recognized by `merge_dict_preprocessing` (note
`rightanti` next to `right_anti`, and Python `None` next to `'none'`). -/
def recognizedHows : List (Option Str) :=
  [some (strL "left"), some (strL "inner"), some (strL "rightanti"),
   some (strL "right_anti"), some (strL "right"), some (strL "replace"),
   some (strL "outer"), some (strL "update"), some (strL "append"),
   some (strL "none"), none, some (strL "clear")]

/-- The recognized `how` arguments under which `merge_dict_preprocessing`
reports `update = true` (no clearing of the left dictionary). -/
def updateTrueHows : List (Option Str) :=
  [some (strL "left"), some (strL "outer"), some (strL "update"),
   some (strL "append"), some (strL "none"), none]

/-- Pure form of one step of `merge_config_dict` with `how_section='outer'`:
an existing section is updated in place with the rebuilt right section, a
missing one is added wholesale. -/
def outerStepPure (right : ConfigDict) (acc : ConfigDict) (k : Str) : ConfigDict :=
  if odMem acc.cfg k then
    let rsec := (cdGetSectionRead right (some k)).getD []
    let merged := odUpdate ((odLookup acc.cfg (toSection k)).getD [])
      (sdNew (sdMergeBatch rsec (odKeys rsec)))
    { acc with cfg := cdModify acc.cfg (toSection k) (fun _ => merged) }
  else cdAddSection acc k ((cdGetSectionRead right (some k)).getD []) false

/-- Specification-side rendering of the claim's fallback cascade, as
amended: value of the key in the named section of the live config, else in
the live config's default section, else — when `search_in_default_config` is
enabled — in the named section of the default config, else — under the same
policy — in the default config's default section, else the supplied default,
else `KeyError`. -/
def cascadeSpec (st : ConfigState) (s : Str) (k : Str) (dflt : Option Value) :
    Except PyErr Value :=
  let csec := (odLookup st.ccfg.cfg s).getD []
  let cdef := match st.ccfg.defaultSectionPtr with
    | some d => (odLookup st.ccfg.cfg d).getD []
    | none => []
  let dsec := (odLookup st.dcfg.cfg s).getD []
  let ddef := match st.dcfg.defaultSectionPtr with
    | some d => (odLookup st.dcfg.cfg d).getD []
    | none => []
  let finish : Except PyErr Value := match dflt with
    | some v => .ok v
    | none => .error .keyError
  match odLookup csec k with
  | some v => .ok v
  | none =>
    match odLookup cdef k with
    | some v => .ok v
    | none =>
      if st.searchInDefaultConfig then
        match odLookup dsec k with
        | some v => .ok v
        | none =>
          match odLookup ddef k with
          | some v => .ok v
          | none => finish
      else finish

/-- Specification-side rendering of the claim's cascade exactly as stated:
only the third level is guarded by `search_in_default_config`; the fourth
level (default section of the default config) applies unconditionally. -/
def cascadeClaimAsStated (st : ConfigState) (s : Str) (k : Str) (dflt : Option Value) :
    Except PyErr Value :=
  let csec := (odLookup st.ccfg.cfg s).getD []
  let cdef := match st.ccfg.defaultSectionPtr with
    | some d => (odLookup st.ccfg.cfg d).getD []
    | none => []
  let dsec := (odLookup st.dcfg.cfg s).getD []
  let ddef := match st.dcfg.defaultSectionPtr with
    | some d => (odLookup st.dcfg.cfg d).getD []
    | none => []
  let finish : Except PyErr Value := match dflt with
    | some v => .ok v
    | none => .error .keyError
  match odLookup csec k with
  | some v => .ok v
  | none =>
    match odLookup cdef k with
    | some v => .ok v
    | none =>
      match (if st.searchInDefaultConfig then odLookup dsec k else none) with
      | some v => .ok v
      | none =>
        match odLookup ddef k with
        | some v => .ok v
        | none => finish

/-- Well-formedness of a key-value list: every stored key equals its
`to_key` normalization (true of every `SectionDict` the library builds). -/
def sdNormalized (sec : SectionDict) : Prop :=
  ∀ q ∈ sec, toKey q.1 = q.1

/-- Well-formedness of a `ConfigDict`'s sections for the cascade theorem:
every stored section's keys are normalized. -/
def cdNormalized (cd : ConfigDict) : Prop :=
  ∀ p ∈ cd.cfg, sdNormalized p.2

/-! ### Concrete instances used by the claims -/

/-- Builder used by the examples: a `ConfigDict` from raw sections with both
pointers set to `default`, as `_Config.init` does. -/
def mkExampleCD (raw : List (Str × List (Str × Value))) : ConfigDict :=
  cdSetSection (cdSetDefaultSection (cdOfDict raw) (some (strL "default"))) (some (strL "default"))

/-- The live config of the claimed fallback-cascade scenario:
`{sec: {k: 1}}` with default section `{dk: 2}`. -/
def exC1Live : ConfigDict :=
  mkExampleCD [(strL "sec", [(strL "k", Value.vInt 1)]),
               (strL "default", [(strL "dk", Value.vInt 2)])]

/-- The default config of the claimed fallback-cascade scenario:
`{sec: {k: 3, k2: 4}}` with default-default section `{dk2: 5}`. -/
def exC1Default : ConfigDict :=
  mkExampleCD [(strL "sec", [(strL "k", Value.vInt 3), (strL "k2", Value.vInt 4)]),
               (strL "default", [(strL "dk2", Value.vInt 5)])]

/-- The claimed fallback-cascade scenario with the policy enabled. -/
def exC1State : ConfigState := ⟨exC1Live, exC1Default, true⟩

/-- A state whose default config knows key `x` in its default section while
the live config does not, with `search_in_default_config` disabled. -/
def exC1Off : ConfigState :=
  ⟨⟨[(strL "default", [])], some (strL "default"), some (strL "default")⟩,
   ⟨[(strL "default", [(strL "x", Value.vInt 7)])], some (strL "default"),
    some (strL "default")⟩,
   false⟩

/-- A live config holding one non-empty section, for the load claim. -/
def exC2State : ConfigState :=
  ⟨⟨[(strL "mysec", [(strL "k", Value.vInt 1)])], some (strL "mysec"), some (strL "mysec")⟩,
   ⟨[], none, none⟩, true⟩

/-- The decode of an existing but empty INI file: `configparser` always
exposes its `DEFAULT` section, so `read_config` wraps it into a `ConfigDict`
with one empty section. -/
def exC2Decoded : ConfigDict := cdOfDict [(strL "DEFAULT", [])]

/-- A one-section `ConfigDict` for the `isempty` claim. -/
def exC3Cd : ConfigDict := cdOfDict [(strL "a", [(strL "k", Value.vInt 1)])]

/-- The ordered duplicate-key input of the duplicate-policy claim. -/
def exC5Input : List (Str × Value) :=
  [(strL "@s-overwritten", Value.vStr (strL "value1")),
   (strL "overwritten", Value.vStr (strL "value2")),
   (strL "@auto-overwritten", Value.vStr (strL "value3"))]

/-- Shorthand for `convert_dict_from_str` with its default keyword arguments
except the duplicate policy. -/
def convertDefaultsDup (dups : String) (d : List (Str × Value)) :
    Except PyErr (List (Str × Value)) :=
  convertDictFromStr true (strL "ignore") false false false (strL "ignore") (strL dups) d

/-- A `ConfigDict` with both pointers on an existing section `a`, for the
pointer-invariant claim. -/
def exC8Cd : ConfigDict :=
  ⟨[(strL "a", [(strL "k", Value.vInt 1)])], some (strL "a"), some (strL "a")⟩

/-- The representative values of the round-trip claim, one per encodable
type of the conversion table (`Reference` excluded, see the amended claim). -/
def repBool : Value := .vBool true
/-- Representative integer. -/
def repInt : Value := .vInt 1
/-- Representative float (`9.9`). -/
def repFloat : Value := .vFloat ⟨99, 10, by decide, by decide⟩
/-- Representative string. -/
def repStr : Value := .vStr (strL "hello")
/-- Representative list (`[1, 2, 3]`, the claim's auto-flag example). -/
def repList : Value := .vList [.vInt 1, .vInt 2, .vInt 3]
/-- Representative tuple. -/
def repTuple : Value := .vTuple [.vInt 1, .vInt 2]
/-- Representative path. -/
def repPath : Value := .vPath (strL "data/config.ini")
/-- Representative timestamp. -/
def repDate : Value := .vDate ⟨2019, 4, 1, 0, 0, 0⟩

/-- Round-trip through the codec with the writer's and reader's default
arguments: encode a one-entry dictionary, then decode it. -/
def codecRoundtrip (d : List (Str × Value)) : Except PyErr (List (Str × Value)) :=
  convertDictFromStr true (strL "ignore") false false false (strL "ignore") (strL "first")
    ((convertDictToStr true d).map (fun p => (p.1, Value.vStr p.2)))

/-! ## Lemmas about the ordered-dictionary primitives -/

theorem odLookup_nil {β : Type} (k : Str) : odLookup ([] : List (Str × β)) k = none := rfl

theorem odLookup_cons {β : Type} (k' : Str) (v' : β) (d : List (Str × β)) (k : Str) :
    odLookup ((k', v') :: d) k = if k' = k then some v' else odLookup d k := rfl

theorem odMem_cons {β : Type} (k' : Str) (v' : β) (d : List (Str × β)) (k : Str) :
    odMem ((k', v') :: d) k = if k' = k then true else odMem d k := rfl

theorem odMem_eq_isSome {β : Type} (d : List (Str × β)) (k : Str) :
    odMem d k = (odLookup d k).isSome := by
  induction d with
  | nil => rfl
  | cons p rest ih =>
    obtain ⟨k', v'⟩ := p
    rw [odMem_cons, odLookup_cons]
    by_cases h : k' = k
    · rw [if_pos h, if_pos h]
      rfl
    · rw [if_neg h, if_neg h, ih]

theorem odMem_iff_mem_keys {β : Type} (d : List (Str × β)) (k : Str) :
    odMem d k = true ↔ k ∈ odKeys d := by
  induction d with
  | nil => simp [odMem, odKeys]
  | cons p rest ih =>
    obtain ⟨k', v'⟩ := p
    rw [odMem_cons]
    simp only [odKeys, List.map_cons, List.mem_cons]
    rw [← odKeys, ← ih]
    by_cases h : k' = k
    · rw [if_pos h]
      simp [h]
    · rw [if_neg h]
      have : ¬(k = k') := fun hh => h hh.symm
      simp [this]

theorem odLookup_odSet_self {β : Type} (d : List (Str × β)) (k : Str) (v : β) :
    odLookup (odSet d k v) k = some v := by
  induction d with
  | nil => simp [odSet, odLookup_cons]
  | cons p rest ih =>
    obtain ⟨k', v'⟩ := p
    simp only [odSet]
    by_cases h : k' = k
    · rw [if_pos h, odLookup_cons, if_pos rfl]
    · rw [if_neg h, odLookup_cons, if_neg h, ih]

theorem odLookup_odSet_ne {β : Type} (d : List (Str × β)) (k k' : Str) (v : β)
    (h : k' ≠ k) : odLookup (odSet d k v) k' = odLookup d k' := by
  induction d with
  | nil =>
    show odLookup [(k, v)] k' = none
    rw [odLookup_cons, if_neg (Ne.symm h), odLookup_nil]
  | cons p rest ih =>
    obtain ⟨k0, v0⟩ := p
    simp only [odSet]
    by_cases h0 : k0 = k
    · subst h0
      rw [if_pos rfl, odLookup_cons, odLookup_cons, if_neg (Ne.symm h), if_neg]
      intro hh
      exact h hh.symm
    · rw [if_neg h0, odLookup_cons, odLookup_cons, ih]

theorem odSet_of_lookup {β : Type} {d : List (Str × β)} {k : Str} {v : β}
    (h : odLookup d k = some v) : odSet d k v = d := by
  induction d with
  | nil => simp [odLookup] at h
  | cons p rest ih =>
    obtain ⟨k', v'⟩ := p
    rw [odLookup_cons] at h
    simp only [odSet]
    by_cases h0 : k' = k
    · rw [if_pos h0] at h
      rw [if_pos h0, h0]
      cases h
      rfl
    · rw [if_neg h0] at h
      rw [if_neg h0, ih h]

theorem odUpdate_nil_right {β : Type} (d : List (Str × β)) : odUpdate d [] = d := rfl

theorem odUpdate_cons_right {β : Type} (d : List (Str × β)) (p : Str × β)
    (b : List (Str × β)) : odUpdate d (p :: b) = odUpdate (odSet d p.1 p.2) b := rfl

theorem odUpdate_eq_self {β : Type} (d : List (Str × β)) (b : List (Str × β))
    (h : ∀ p ∈ b, odLookup d p.1 = some p.2) : odUpdate d b = d := by
  induction b generalizing d with
  | nil => rfl
  | cons p rest ih =>
    rw [odUpdate_cons_right, odSet_of_lookup (h p (List.mem_cons_self p rest))]
    exact ih d (fun q hq => h q (List.mem_cons_of_mem p hq))

theorem odKeys_cons {β : Type} (p : Str × β) (d : List (Str × β)) :
    odKeys (p :: d) = p.1 :: odKeys d := rfl

theorem odLookup_odUpdate_not {β : Type} (d : List (Str × β)) (b : List (Str × β))
    (k : Str) (h : k ∉ odKeys b) : odLookup (odUpdate d b) k = odLookup d k := by
  induction b generalizing d with
  | nil => rfl
  | cons p rest ih =>
    rw [odUpdate_cons_right]
    rw [odKeys_cons] at h
    have hk : k ∉ odKeys rest := fun hh => h (List.mem_cons_of_mem p.1 hh)
    have hne : k ≠ p.1 := fun hh => h (hh ▸ List.mem_cons_self p.1 (odKeys rest))
    rw [ih (odSet d p.1 p.2) hk, odLookup_odSet_ne d p.1 k p.2 hne]

theorem odLookup_odUpdate_mem {β : Type} (d : List (Str × β)) (b : List (Str × β))
    (k : Str) (v : β) (hnd : (odKeys b).Nodup) (hmem : (k, v) ∈ b) :
    odLookup (odUpdate d b) k = some v := by
  induction b generalizing d with
  | nil => cases hmem
  | cons p rest ih =>
    rw [odUpdate_cons_right]
    rcases List.mem_cons.mp hmem with heq | htl
    · subst heq
      have hk : k ∉ odKeys rest := by
        simp only [odKeys, List.map_cons, List.nodup_cons] at hnd
        exact hnd.1
      rw [odLookup_odUpdate_not _ _ _ hk, odLookup_odSet_self]
    · exact ih (odSet d p.1 p.2) (by
        simp only [odKeys, List.map_cons, List.nodup_cons] at hnd
        exact hnd.2) htl

theorem odLookup_self_of_nodup {β : Type} (d : List (Str × β)) (k : Str) (v : β)
    (hnd : (odKeys d).Nodup) (hm : (k, v) ∈ d) : odLookup d k = some v := by
  induction d with
  | nil => cases hm
  | cons p rest ih =>
    obtain ⟨k', v'⟩ := p
    simp only [odKeys, List.map_cons, List.nodup_cons] at hnd
    rw [odLookup_cons]
    rcases List.mem_cons.mp hm with heq | htl
    · rw [Prod.mk.injEq] at heq
      simp [heq.1, heq.2]
    · have hne : k' ≠ k := by
        intro hh
        subst hh
        exact hnd.1 (List.mem_map.mpr ⟨(k', v), htl, rfl⟩)
      rw [if_neg hne]
      exact ih hnd.2 htl

/-- `odUpdate` with the same batch twice is the same as once, when the batch
has no duplicate keys. -/
theorem odUpdate_idem {β : Type} (d : List (Str × β)) (b : List (Str × β))
    (hnd : (odKeys b).Nodup) : odUpdate (odUpdate d b) b = odUpdate d b :=
  odUpdate_eq_self _ _ (fun p hp => odLookup_odUpdate_mem d b p.1 p.2 hnd hp)

/-! ## Lemmas about `sdNew` -/

/-- Invariant-carrying form of the `sdNew` fold. -/
theorem sdNew_fold_inv (d : List (Str × Value)) (acc : SectionDict)
    (hacc : (odKeys acc).Nodup) :
    (odKeys (d.foldl (fun acc p =>
      let nk := toKey p.1
      if !checkAllowedValueType p.2 ∨ nk.isEmpty then acc
      else if odMem acc nk then acc
      else acc ++ [(nk, p.2)]) acc)).Nodup := by
  induction d generalizing acc with
  | nil => exact hacc
  | cons p rest ih =>
    simp only [List.foldl_cons]
    by_cases h1 : (!checkAllowedValueType p.2 ∨ (toKey p.1).isEmpty)
    · rw [if_pos h1]
      exact ih acc hacc
    · rw [if_neg h1]
      by_cases h2 : odMem acc (toKey p.1) = true
      · rw [if_pos h2]
        exact ih acc hacc
      · rw [if_neg h2]
        refine ih _ ?_
        have : odKeys (acc ++ [(toKey p.1, p.2)]) = odKeys acc ++ [toKey p.1] := by
          simp [odKeys]
        rw [this, List.nodup_append]
        refine ⟨hacc, List.nodup_singleton _, ?_⟩
        intro a ha hb
        rw [List.mem_singleton] at hb
        subst hb
        exact h2 ((odMem_iff_mem_keys acc (toKey p.1)).mpr ha)

/-- The keys of a freshly built `SectionDict` are distinct. -/
theorem sdNew_keys_nodup (d : List (Str × Value)) : (odKeys (sdNew d)).Nodup :=
  sdNew_fold_inv d [] (by simp [odKeys])

/-- The `_merge_dict` comprehension over all keys of a duplicate-free
dictionary reconstructs it. -/
theorem sdMergeBatch_congr (x y : SectionDict) (keys : List Str)
    (h : ∀ k ∈ keys, odLookup x k = odLookup y k) :
    sdMergeBatch x keys = sdMergeBatch y keys := by
  simp only [sdMergeBatch]
  refine List.map_congr_left ?_
  intro a ha
  rw [h a ha]

theorem sdMergeBatch_self (x : SectionDict) (hnd : (odKeys x).Nodup) :
    sdMergeBatch x (odKeys x) = x := by
  induction x with
  | nil => rfl
  | cons p rest ih =>
    obtain ⟨k, v⟩ := p
    rw [odKeys_cons] at hnd ⊢
    rw [List.nodup_cons] at hnd
    show (k :: odKeys rest).map
      (fun k' => (k', ((odLookup ((k, v) :: rest) k').getD Value.vNone))) = (k, v) :: rest
    rw [List.map_cons]
    rw [odLookup_cons, if_pos rfl]
    refine congrArg (fun l => (k, v) :: l) ?_
    have step : (odKeys rest).map
        (fun k' => (k', ((odLookup ((k, v) :: rest) k').getD Value.vNone))) =
        sdMergeBatch rest (odKeys rest) := by
      refine List.map_congr_left ?_
      intro a ha
      rw [odLookup_cons, if_neg]
      intro hh
      subst hh
      exact hnd.1 ha
    rw [step, ih hnd.2]

/-! ## C10 — decoding under the `b` flag -/

/-- Claim C10: under the `b` flag the codec applies `to_bool`, which returns
`False` exactly for the inputs `"False"`, `"None"` and the empty string, and
`True` for every other string. -/
theorem C10_bool_flag_decode (s : Str) :
    convApply (strL "b") (.vStr s) = .ok (.vBool (toBoolV (.vStr s))) ∧
    (toBoolV (.vStr s) = false ↔ (s = strL "False" ∨ s = strL "None" ∨ s = [])) := by
  refine ⟨rfl, ?_⟩
  simp only [toBoolV]
  by_cases h : s = strL "False" ∨ s = strL "None"
  · rw [if_pos h]
    simp [h]
    tauto
  · rw [if_neg h]
    rw [not_or] at h
    simp [h.1, h.2, List.isEmpty_iff]

/-! ## C5 — duplicate-key policies -/

/-- Claim C5: feeding the ordered pairs `(@s-overwritten, value1)`,
`(overwritten, value2)`, `(@auto-overwritten, value3)` through
`convert_dict_from_str` yields the claimed dictionaries under the `rename`,
`first` and `last` policies. -/
theorem C5_duplicate_policies :
    convertDefaultsDup "rename" exC5Input =
      .ok [(strL "overwritten", .vStr (strL "value1")),
           (strL "overwritten_1", .vStr (strL "value2")),
           (strL "overwritten_2", .vStr (strL "value3"))] ∧
    convertDefaultsDup "first" exC5Input =
      .ok [(strL "overwritten", .vStr (strL "value1"))] ∧
    convertDefaultsDup "last" exC5Input =
      .ok [(strL "overwritten", .vStr (strL "value3"))] :=
  ⟨rfl, rfl, rfl⟩

/-! ## C3 — the `isempty` property -/

/-- Counterexample to claim C3 as stated: on a `ConfigDict` with one
non-empty section, `isempty` does not return a boolean at all — the
membership test `True in [ele for ele in self.values()]` calls
`SectionDict.__eq__(section, True)`, which tries to build
`SectionDict(True)` and raises `TypeError` (the claim predicted the boolean
`not (True in [bool(v) for v in values])`, i.e. `False` here). -/
theorem C3_counterexample : cdIsEmpty exC3Cd = .error .typeError := rfl

/-- Claim C3 as amended: `isempty` returns `True` when the `ConfigDict` has
no sections, and raises `TypeError` as soon as it has at least one, because
the code omits the `bool(...)` cast: `True in [section, ...]` invokes
`SectionDict.__eq__` with `True`, which fails constructing
`SectionDict(True)`. -/
theorem C3_isempty_amended (cd : ConfigDict) :
    cdIsEmpty cd = (if cd.cfg.isEmpty then .ok true else .error .typeError) := by
  obtain ⟨cfg, d, s⟩ := cd
  cases cfg with
  | nil => rfl
  | cons p rest => rfl

/-! ## C2 — loading an empty file with `load_empty=False` -/

/-! ## C6 and C9 helper lemmas: error classification -/

theorem intParse_error_eq {s : Str} {e : PyErr} (h : intParse s = .error e) :
    e = .valueError := by
  simp only [intParse] at h
  split at h <;> split at h <;> simp_all

theorem floatParse_error_eq {s : Str} {e : PyErr} (h : floatParse s = .error e) :
    e = .valueError := by
  simp only [floatParse] at h
  split at h
  · split at h <;> simp_all
  · split at h <;> simp_all
  · simp_all

theorem toFloat_vStr_error_eq {ts ds : Option Char} {s : Str} {e : PyErr}
    (h : toFloat ts ds (.vStr s) = .error e) : e = .valueError := by
  simp only [toFloat] at h
  exact floatParse_error_eq h

theorem tsParse_error_eq {df : Bool} {s : Str} {e : PyErr}
    (h : tsParse df s = .error e) : e = .valueError := by
  simp only [tsParse] at h
  split at h <;> first
    | simp_all
    | (split at h <;> simp_all)

theorem litEval_error_eq {s : Str} {e : PyErr} (h : litEval s = .error e) :
    e = .valueError := by
  simp only [litEval] at h
  split at h
  · split at h <;> simp_all
  · simp_all

theorem intConv_vStr_caught {s : Str} {e : PyErr}
    (h : intConv (.vStr s) = .error e) :
    e = .valueError ∨ e = .typeError ∨ e = .syntaxError := by
  simp only [intConv] at h
  cases hx : intParse s with
  | ok n => rw [hx] at h; cases h
  | error e2 =>
    rw [hx] at h
    cases h
    exact Or.inl (intParse_error_eq hx)

theorem floatBranch_vStr_caught {ts ds : Option Char} {s : Str} {e : PyErr}
    (h : (toFloat ts ds (.vStr s)).map Value.vFloat = .error e) :
    e = .valueError ∨ e = .typeError ∨ e = .syntaxError := by
  cases hx : toFloat ts ds (.vStr s) with
  | ok q => rw [hx] at h; cases h
  | error e2 =>
    rw [hx] at h
    cases h
    exact Or.inl (toFloat_vStr_error_eq hx)

theorem dateBranch_vStr_caught {df : Bool} {s : Str} {e : PyErr}
    (h : dateConv df (.vStr s) = .error e) :
    e = .valueError ∨ e = .typeError ∨ e = .syntaxError := by
  simp only [dateConv] at h
  cases hx : tsParse df s with
  | ok t => rw [hx] at h; cases h
  | error e2 =>
    rw [hx] at h
    cases h
    exact Or.inl (tsParse_error_eq hx)

theorem autoBranch_vStr_caught {s : Str} {e : PyErr}
    (h : autoConv (.vStr s) = .error e) :
    e = .valueError ∨ e = .typeError ∨ e = .syntaxError := by
  simp only [autoConv] at h
  exact Or.inl (litEval_error_eq h)

/-- Every failure of a conversion function applied to a string is one of the
exception classes caught by `_single_item_conversion`. -/
theorem convApply_vStr_error_caught (fl : Str) (s : Str) (e : PyErr)
    (h : convApply fl (.vStr s) = .error e) :
    e = .valueError ∨ e = .typeError ∨ e = .syntaxError := by
  delta convApply at h
  by_cases c1 : (fl == strL "b") = true
  · rw [if_pos c1] at h
    cases h
  · rw [if_neg c1] at h
    by_cases c2 : ((fl == strL "d") = true ∨ (fl == strL "i") = true)
    · rw [if_pos c2] at h
      exact intConv_vStr_caught h
    · rw [if_neg c2] at h
      by_cases c3 : (fl == strL "ftws") = true
      · rw [if_pos c3] at h
        exact floatBranch_vStr_caught h
      · rw [if_neg c3] at h
        by_cases c4 : (fl == strL "ftc") = true
        · rw [if_pos c4] at h
          exact floatBranch_vStr_caught h
        · rw [if_neg c4] at h
          by_cases c5 : (fl == strL "fdc") = true
          · rw [if_pos c5] at h
            exact floatBranch_vStr_caught h
          · rw [if_neg c5] at h
            by_cases c6 : (fl == strL "fdd") = true
            · rw [if_pos c6] at h
              exact floatBranch_vStr_caught h
            · rw [if_neg c6] at h
              by_cases c7 : (fl == strL "ftwsdc") = true
              · rw [if_pos c7] at h
                exact floatBranch_vStr_caught h
              · rw [if_neg c7] at h
                by_cases c8 : (fl == strL "f") = true
                · rw [if_pos c8] at h
                  exact floatBranch_vStr_caught h
                · rw [if_neg c8] at h
                  by_cases c9 : (fl == strL "p") = true
                  · rw [if_pos c9] at h
                    rw [show pathConv (Value.vStr s) = Except.ok (Value.vPath s) from rfl] at h; cases h
                  · rw [if_neg c9] at h
                    by_cases c10 : (fl == strL "r") = true
                    · rw [if_pos c10] at h
                      injection h with h1; exact Or.inr (Or.inl h1.symm)
                    · rw [if_neg c10] at h
                      by_cases c11 : (fl == strL "c") = true
                      · rw [if_pos c11] at h
                        cases h
                      · rw [if_neg c11] at h
                        by_cases c12 : (fl == strL "s") = true
                        · rw [if_pos c12] at h
                          cases h
                        · rw [if_neg c12] at h
                          by_cases c13 : (fl == strL "date") = true
                          · rw [if_pos c13] at h
                            exact dateBranch_vStr_caught h
                          · rw [if_neg c13] at h
                            by_cases c14 : (fl == strL "datedb") = true
                            · rw [if_pos c14] at h
                              exact dateBranch_vStr_caught h
                            · rw [if_neg c14] at h
                              by_cases c15 : (fl == strL "auto") = true
                              · rw [if_pos c15] at h
                                exact autoBranch_vStr_caught h
                              · rw [if_neg c15] at h
                                by_cases c16 : (fl == strL "lc") = true
                                · rw [if_pos c16] at h
                                  cases h
                                · rw [if_neg c16] at h
                                  by_cases c17 : (fl == strL "lsc") = true
                                  · rw [if_pos c17] at h
                                    cases h
                                  · rw [if_neg c17] at h
                                    by_cases c18 : (fl == strL "ls") = true
                                    · rw [if_pos c18] at h
                                      cases h
                                    · rw [if_neg c18] at h
                                      by_cases c19 : (fl == strL "lbs") = true
                                      · rw [if_pos c19] at h
                                        cases h
                                      · rw [if_neg c19] at h
                                        by_cases c20 : (fl == strL "lnl") = true
                                        · rw [if_pos c20] at h
                                          cases h
                                        · rw [if_neg c20] at h
                                          by_cases c21 : (fl == strL "ld") = true
                                          · rw [if_pos c21] at h
                                            cases h
                                          · rw [if_neg c21] at h
                                            by_cases c22 : (fl == strL "lws") = true
                                            · rw [if_pos c22] at h
                                              cases h
                                            · rw [if_neg c22] at h
                                              by_cases c23 : (fl == strL "l") = true
                                              · rw [if_pos c23] at h
                                                cases h
                                              · rw [if_neg c23] at h
                                                by_cases c24 : (fl == strL "t") = true
                                                · rw [if_pos c24] at h
                                                  cases h
                                                · rw [if_neg c24] at h
                                                  cases h

/-! ## C6 — conversion-failure policies -/

/-- Claim C6: for every flag of the conversion table and every string on
which that flag's conversion function fails, decoding under the `ignore`
policy returns the original string unchanged, and under the `drop` policy
returns `None`. -/
theorem C6_conversion_error_policies (fl : Str) (s : Str) (e : PyErr)
    (hmem : fl ∈ conversionFlagNames)
    (herr : convApply fl (.vStr s) = .error e) :
    singleItemConversion (some fl) (strL "ignore") false false (.vStr s) = .ok (.vStr s) ∧
    singleItemConversion (some fl) (strL "drop") false false (.vStr s) = .ok .vNone := by
  have hcaught := convApply_vStr_error_caught fl s e herr
  have hmap : ∀ (g : Value → Value),
      (convApply fl (.vStr s)).map g = .error e := by
    intro g
    rw [herr]
    rfl
  constructor
  · show sicHandle (strL "ignore") (.vStr s) ((convApply fl (.vStr s)).map _) = _
    rw [hmap]
    unfold sicHandle
    rcases hcaught with h | h | h <;> simp [h]
  · show sicHandle (strL "drop") (.vStr s) ((convApply fl (.vStr s)).map _) = _
    rw [hmap]
    unfold sicHandle
    rcases hcaught with h | h | h <;> simp [h, strL]

/-- Witness for C6 at the `i` flag and the unparsable string `abc`. -/
theorem C6_conversion_error_policies_witness :
    singleItemConversion (some (strL "i")) (strL "ignore") false false
        (.vStr (strL "abc")) = .ok (.vStr (strL "abc")) ∧
    singleItemConversion (some (strL "i")) (strL "drop") false false
        (.vStr (strL "abc")) = .ok .vNone :=
  C6_conversion_error_policies (strL "i") (strL "abc") .valueError (by decide) rfl

/-! ## C9 — unrecognized merge modes -/

/-- An unrecognized `how` makes `merge_dict_preprocessing` return
`(None, None)`. -/
theorem mdp_unknown {α β : Type} (l : List (Str × α)) (r : List (Str × β))
    (how : Option Str) (h : how ∉ recognizedHows) :
    mergeDictPreprocessing l r how = none := by
  have hne : ∀ x ∈ recognizedHows, (how == x) = false := by
    intro x hx
    rw [beq_eq_false_iff_ne]
    intro hh
    exact h (hh ▸ hx)
  have h1 := hne (some (strL "left")) (by decide)
  have h2 := hne (some (strL "inner")) (by decide)
  have h3 := hne (some (strL "rightanti")) (by decide)
  have h4 := hne (some (strL "right_anti")) (by decide)
  have h5 := hne (some (strL "right")) (by decide)
  have h6 := hne (some (strL "replace")) (by decide)
  have h7 := hne (some (strL "outer")) (by decide)
  have h8 := hne (some (strL "update")) (by decide)
  have h9 := hne (some (strL "append")) (by decide)
  have h10 := hne (some (strL "none")) (by decide)
  have h11 := hne none (by decide)
  have h12 := hne (some (strL "clear")) (by decide)
  unfold mergeDictPreprocessing
  simp only [h1, h2, h3, h4, h5, h6, h7, h8, h9, h10, h11, h12]
  simp

/-- Claim C9 as amended: a `how` outside the recognized set (which also
includes `rightanti`) does raise and propagate — but a `TypeError`, not a
`ValueError`: `merge_dict_preprocessing` logs and returns `(None, None)`,
and the callers then iterate the `None` key set. -/
theorem C9_unknown_how_raises (d x : SectionDict) (L R : ConfigDict)
    (how hs : Option Str) (h : how ∉ recognizedHows) :
    sdMerge d x how = .error .typeError ∧
    cdMergeConfigDict L R how hs = .error .typeError := by
  constructor
  · unfold sdMerge
    rw [mdp_unknown d x how h]
  · unfold cdMergeConfigDict
    rw [mdp_unknown L.cfg R.cfg how h]

/-- Witness for C9 at the unrecognized mode `bad_string`. -/
theorem C9_unknown_how_raises_witness :
    sdMerge [(strL "a", Value.vInt 1)] [] (some (strL "bad_string")) = .error .typeError ∧
    cdMergeConfigDict ⟨[], none, none⟩ ⟨[], none, none⟩ (some (strL "bad_string")) none
      = .error .typeError :=
  C9_unknown_how_raises [(strL "a", Value.vInt 1)] [] ⟨[], none, none⟩ ⟨[], none, none⟩
    (some (strL "bad_string")) none (by decide)

/-- Counterexample to claim C9 as stated: the error raised for the
unrecognized mode `bad_string` is `TypeError`, not the claimed `ValueError`;
moreover `rightanti` — outside the claim's recognized set — is accepted
without any error. -/
theorem C9_counterexample :
    sdMerge [] [] (some (strL "bad_string")) = .error .typeError ∧
    PyErr.typeError ≠ PyErr.valueError ∧
    mergeDictPreprocessing ([] : SectionDict) ([] : SectionDict)
      (some (strL "rightanti")) = some ([], false) :=
  ⟨rfl, by decide, rfl⟩

/-! ## Idempotence of the normalizers -/

theorem dropWhile_head_false {p : Char → Bool} {l : Str} {c : Char} {rest : Str}
    (h : l.dropWhile p = c :: rest) : p c = false := by
  induction l with
  | nil => cases h
  | cons a tl ih =>
    rw [List.dropWhile_cons] at h
    by_cases hp : p a = true
    · rw [if_pos hp] at h
      exact ih h
    · rw [if_neg hp] at h
      cases h
      exact Bool.not_eq_true _ |>.mp hp

theorem dropWhileRight_idem (p : Char → Bool) (l : Str) :
    dropWhileRight p (dropWhileRight p l) = dropWhileRight p l := by
  induction l with
  | nil => rfl
  | cons c rest ih =>
    simp only [dropWhileRight]
    by_cases hc : (dropWhileRight p rest).isEmpty ∧ p c
    · rw [if_pos hc]
      rfl
    · rw [if_neg hc]
      simp only [dropWhileRight, ih]
      rw [if_neg hc]

theorem dropWhileRight_cons_shape (p : Char → Bool) (c : Char) (l : Str) :
    dropWhileRight p (c :: l) = [] ∨
    ∃ r, dropWhileRight p (c :: l) = c :: r := by
  simp only [dropWhileRight]
  by_cases hc : (dropWhileRight p l).isEmpty ∧ p c
  · rw [if_pos hc]
    exact Or.inl rfl
  · rw [if_neg hc]
    exact Or.inr ⟨_, rfl⟩

theorem pyStrip_idem (s : Str) : pyStrip (pyStrip s) = pyStrip s := by
  unfold pyStrip
  have hdw : (dropWhileRight pyIsSpace (s.dropWhile pyIsSpace)).dropWhile pyIsSpace =
      dropWhileRight pyIsSpace (s.dropWhile pyIsSpace) := by
    cases hu : s.dropWhile pyIsSpace with
    | nil => rfl
    | cons c u' =>
      have hc : pyIsSpace c = false := dropWhile_head_false hu
      rcases dropWhileRight_cons_shape pyIsSpace c u' with hsh | ⟨r, hsh⟩
      · rw [hsh]
        rfl
      · rw [hsh, List.dropWhile_cons, if_neg (by rw [hc]; exact Bool.false_ne_true)]
  rw [hdw, dropWhileRight_idem]

theorem toSection_idem (s : Str) : toSection (toSection s) = toSection s :=
  pyStrip_idem s

/-! ## Membership lemmas for the `ConfigDict` operations -/

theorem odMem_odSet_self {β : Type} (d : List (Str × β)) (k : Str) (v : β) :
    odMem (odSet d k v) k = true := by
  rw [odMem_eq_isSome, odLookup_odSet_self]
  rfl

theorem odMem_odSet_mono {β : Type} (d : List (Str × β)) (k k' : Str) (v : β)
    (h : odMem d k' = true) : odMem (odSet d k v) k' = true := by
  by_cases he : k' = k
  · subst he
    exact odMem_odSet_self d k' v
  · rw [odMem_eq_isSome, odLookup_odSet_ne d k k' v he, ← odMem_eq_isSome]
    exact h

theorem odMem_cdModify (cfg : List (Str × SectionDict)) (k : Str)
    (g : SectionDict → SectionDict) (k' : Str) :
    odMem (cdModify cfg k g) k' = odMem cfg k' := by
  induction cfg with
  | nil => rfl
  | cons p rest ih =>
    obtain ⟨k0, v0⟩ := p
    simp only [cdModify]
    by_cases h0 : k0 = k
    · rw [if_pos h0, odMem_cons, odMem_cons]
    · rw [if_neg h0, odMem_cons, odMem_cons, ih]

theorem ptrOkB_mono {cfg cfg' : List (Str × SectionDict)} (p : Option Str)
    (hm : ∀ k, odMem cfg k = true → odMem cfg' k = true)
    (h : ptrOkB cfg p = true) : ptrOkB cfg' p = true := by
  cases p with
  | none => rfl
  | some s => exact hm s h

/-! ## C8 helper lemmas: pointer-invariant preservation -/

theorem cdInv_mk_none (cfg : List (Str × SectionDict)) :
    cdInv ⟨cfg, none, none⟩ = true := rfl

theorem cdAddSection_inv (cd : ConfigDict) (s : Str) (sd : List (Str × Value))
    (b : Bool) (h : cdInv cd = true) : cdInv (cdAddSection cd s sd b) = true := by
  obtain ⟨cfg, dp, sp⟩ := cd
  rw [cdInv, Bool.and_eq_true] at h ⊢
  simp only [cdAddSection]
  have hmono : ∀ k, odMem cfg k = true →
      odMem (if odMem cfg (toSection s) = true then cfg
             else odSet cfg (toSection s) (sdNew sd)) k = true := by
    intro k hk
    by_cases hmem : odMem cfg (toSection s) = true
    · rw [if_pos hmem]
      exact hk
    · rw [if_neg hmem]
      exact odMem_odSet_mono cfg (toSection s) k (sdNew sd) hk
  refine ⟨?_, ptrOkB_mono dp hmono h.2⟩
  cases b with
  | false => exact ptrOkB_mono sp hmono h.1
  | true =>
    show odMem _ (toSection s) = true
    by_cases hmem : odMem cfg (toSection s) = true
    · rw [if_pos hmem]
      exact hmem
    · rw [if_neg hmem]
      exact odMem_odSet_self cfg (toSection s) (sdNew sd)

theorem cdSetSection_inv (cd : ConfigDict) (n : Option Str) (h : cdInv cd = true) :
    cdInv (cdSetSection cd n) = true := by
  obtain ⟨cfg, dp, sp⟩ := cd
  rw [cdInv, Bool.and_eq_true] at h
  cases n with
  | none =>
    simp only [cdSetSection]
    rw [cdInv, Bool.and_eq_true]
    exact ⟨rfl, h.2⟩
  | some n0 =>
    simp only [cdSetSection]
    by_cases hmem : odMem cfg (toSection n0) = true
    · rw [if_pos hmem]
      rw [cdInv, Bool.and_eq_true]
      exact ⟨hmem, h.2⟩
    · rw [if_neg hmem]
      rw [cdInv, Bool.and_eq_true]
      exact h

theorem cdSetDefaultSection_inv (cd : ConfigDict) (n : Option Str)
    (h : cdInv cd = true) : cdInv (cdSetDefaultSection cd n) = true := by
  obtain ⟨cfg, dp, sp⟩ := cd
  rw [cdInv, Bool.and_eq_true] at h
  cases n with
  | none =>
    simp only [cdSetDefaultSection]
    rw [cdInv, Bool.and_eq_true]
    exact ⟨h.1, rfl⟩
  | some n0 =>
    simp only [cdSetDefaultSection]
    by_cases hmem : odMem cfg (toSection n0) = true
    · rw [if_pos hmem]
      rw [cdInv, Bool.and_eq_true]
      exact ⟨h.1, hmem⟩
    · rw [if_neg hmem]
      simp only [cdAddSection, toSection_idem]
      rw [if_neg hmem]
      rw [cdInv, Bool.and_eq_true]
      constructor
      · exact ptrOkB_mono sp (fun k hk => odMem_odSet_mono cfg (toSection n0) k (sdNew []) hk) h.1
      · exact odMem_odSet_self cfg (toSection n0) (sdNew [])

theorem cdOfRaw_inv (raw : Option (List (Str × List (Str × Value))))
    (dsArg sArg : Option (Option Str)) : cdInv (cdOfRaw raw dsArg sArg) = true := by
  cases raw with
  | none => rfl
  | some d =>
    simp only [cdOfRaw]
    have h1 : cdInv ⟨cdFormatConfigDict d, none, none⟩ = true := cdInv_mk_none _
    have h2 : cdInv (match sArg with
        | none => (⟨cdFormatConfigDict d, none, none⟩ : ConfigDict)
        | some a => cdSetSection ⟨cdFormatConfigDict d, none, none⟩ a) = true := by
      cases sArg with
      | none => exact h1
      | some a => exact cdSetSection_inv _ a h1
    cases dsArg with
    | none => exact h2
    | some a => exact cdSetDefaultSection_inv _ a h2

/-- For every update-preserving `how`, `merge_dict_preprocessing` reports
`update = true`. -/
theorem mdp_updateTrue {α β : Type} (l : List (Str × α)) (r : List (Str × β))
    (how : Option Str) (h : how ∈ updateTrueHows) :
    ∃ keys, mergeDictPreprocessing l r how = some (keys, true) := by
  simp only [updateTrueHows, List.mem_cons, List.not_mem_nil, or_false] at h
  rcases h with h | h | h | h | h | h <;> subst h <;> exact ⟨_, rfl⟩

theorem foldlM_ok_induct {σ : Type} (step : σ → Str → Except PyErr σ)
    (P : σ → Prop)
    (hstep : ∀ acc k acc', P acc → step acc k = .ok acc' → P acc') :
    ∀ (keys : List Str) (acc : σ) (M : σ), P acc →
      List.foldlM step acc keys = .ok M → P M := by
  intro keys
  induction keys with
  | nil =>
    intro acc M hP hfold
    cases hfold
    exact hP
  | cons k rest ih =>
    intro acc M hP hfold
    rw [List.foldlM_cons] at hfold
    cases hs : step acc k with
    | error e =>
      rw [hs] at hfold
      cases hfold
    | ok acc' =>
      rw [hs] at hfold
      exact ih acc' M (hstep acc k acc' hP hs) hfold

theorem cdMergeStep_props (right : ConfigDict) (howSec : Option Str)
    (acc : ConfigDict) (k : Str) (acc' : ConfigDict)
    (h : (if odMem acc.cfg k then do
        let rsec := (cdGetSectionRead right (some k)).getD []
        let lsec := (odLookup acc.cfg (toSection k)).getD []
        let merged ← sdMerge lsec rsec howSec
        .ok { acc with cfg := cdModify acc.cfg (toSection k) (fun _ => merged) }
      else
        .ok (cdAddSection acc k ((cdGetSectionRead right (some k)).getD []) false)) = .ok acc') :
    acc'.defaultSectionPtr = acc.defaultSectionPtr ∧
    acc'.sectionPtr = acc.sectionPtr ∧
    (∀ k0, odMem acc.cfg k0 = true → odMem acc'.cfg k0 = true) := by
  by_cases hmem : odMem acc.cfg k = true
  · rw [if_pos hmem] at h
    cases hs : sdMerge ((odLookup acc.cfg (toSection k)).getD [])
        ((cdGetSectionRead right (some k)).getD []) howSec with
    | error e =>
      rw [show (do
        let merged ← sdMerge ((odLookup acc.cfg (toSection k)).getD [])
          ((cdGetSectionRead right (some k)).getD []) howSec
        Except.ok { acc with cfg := cdModify acc.cfg (toSection k) (fun _ => merged) } :
          Except PyErr ConfigDict) = .error e by rw [hs]; rfl] at h
      cases h
    | ok merged =>
      rw [show (do
        let merged ← sdMerge ((odLookup acc.cfg (toSection k)).getD [])
          ((cdGetSectionRead right (some k)).getD []) howSec
        Except.ok { acc with cfg := cdModify acc.cfg (toSection k) (fun _ => merged) } :
          Except PyErr ConfigDict) =
        .ok { acc with cfg := cdModify acc.cfg (toSection k) (fun _ => merged) } by
          rw [hs]; rfl] at h
      cases h
      refine ⟨rfl, rfl, ?_⟩
      intro k0 hk0
      rw [odMem_cdModify]
      exact hk0
  · rw [if_neg hmem] at h
    cases h
    refine ⟨rfl, rfl, ?_⟩
    intro k0 hk0
    show odMem (if odMem acc.cfg (toSection k) = true then acc.cfg
      else odSet acc.cfg (toSection k)
        (sdNew ((cdGetSectionRead right (some k)).getD []))) k0 = true
    by_cases hm2 : odMem acc.cfg (toSection k) = true
    · rw [if_pos hm2]
      exact hk0
    · rw [if_neg hm2]
      exact odMem_odSet_mono acc.cfg (toSection k) k0 _ hk0

/-- Update-preserving merges keep the pointers and only grow the section
set, hence preserve the pointer invariant. -/
theorem cdMerge_updateTrue_inv (L R : ConfigDict) (how hs : Option Str)
    (M : ConfigDict) (hhow : how ∈ updateTrueHows) (hinv : cdInv L = true)
    (hmerge : cdMergeConfigDict L R how hs = .ok M) : cdInv M = true := by
  obtain ⟨keys, hk⟩ := mdp_updateTrue L.cfg R.cfg how hhow
  unfold cdMergeConfigDict at hmerge
  rw [hk] at hmerge
  simp only [Bool.not_true, Bool.false_eq_true, if_false, ite_false] at hmerge
  have hprops := foldlM_ok_induct _
    (fun acc => acc.defaultSectionPtr = L.defaultSectionPtr ∧
      acc.sectionPtr = L.sectionPtr ∧
      (∀ k0, odMem L.cfg k0 = true → odMem acc.cfg k0 = true))
    (fun acc k acc' hP hstep => by
      obtain ⟨h1, h2, h3⟩ := cdMergeStep_props R _ acc k acc' hstep
      exact ⟨h1.trans hP.1, h2.trans hP.2.1, fun k0 hk0 => h3 k0 (hP.2.2 k0 hk0)⟩)
    keys L M ⟨rfl, rfl, fun _ h => h⟩ hmerge
  rw [cdInv, Bool.and_eq_true] at hinv ⊢
  rw [hprops.2.1, hprops.1]
  exact ⟨ptrOkB_mono _ hprops.2.2 hinv.1, ptrOkB_mono _ hprops.2.2 hinv.2⟩

/-! ## C8 — the pointer invariant -/

/-- Counterexample to claim C8 as stated: `clear()` removes every section
but leaves both pointers untouched, so on a `ConfigDict` whose pointers name
the section `a` the invariant (each pointer empty or naming an existing
section) is violated after `clear`. -/
theorem C8_counterexample :
    cdInv exC8Cd = true ∧
    (cdClear exC8Cd none).sectionPtr = some (strL "a") ∧
    (cdClear exC8Cd none).cfg = [] ∧
    cdInv (cdClear exC8Cd none) = false := ⟨rfl, rfl, rfl, rfl⟩

/-- Claim C8 as amended: construction, assignment to the `section` and
`default_section` pointers, `add_section`, and every merge whose mode keeps
existing sections (`left`, `outer`, `update`, `append`, `none`) preserve the
pointer invariant; assigning `section` a non-existent name errors and leaves
the `ConfigDict` unchanged, while assigning `default_section` a non-existent
name auto-creates an empty section of that (normalized) name.  `clear()` and
the clearing merge modes are excluded: they can leave both pointers
dangling. -/
theorem C8_pointer_invariant_amended :
    (∀ raw dsArg sArg, cdInv (cdOfRaw raw dsArg sArg) = true) ∧
    (∀ cd n, cdInv cd = true → cdInv (cdSetSection cd n) = true) ∧
    (∀ cd n, cdInv cd = true → cdInv (cdSetDefaultSection cd n) = true) ∧
    (∀ cd n, odMem cd.cfg (toSection n) = false → cdSetSection cd (some n) = cd) ∧
    (∀ cd n, odMem cd.cfg (toSection n) = false →
      (cdSetDefaultSection cd (some n)).cfg = odSet cd.cfg (toSection n) [] ∧
      (cdSetDefaultSection cd (some n)).defaultSectionPtr = some (toSection n)) ∧
    (∀ cd s sd b, cdInv cd = true → cdInv (cdAddSection cd s sd b) = true) ∧
    (∀ L R how hs M, how ∈ updateTrueHows → cdInv L = true →
      cdMergeConfigDict L R how hs = .ok M → cdInv M = true) := by
  refine ⟨cdOfRaw_inv, cdSetSection_inv, cdSetDefaultSection_inv, ?_, ?_,
    cdAddSection_inv, cdMerge_updateTrue_inv⟩
  · intro cd n h
    simp only [cdSetSection]
    rw [if_neg]
    rw [h]
    exact Bool.false_ne_true
  · intro cd n h
    constructor
    · show (if odMem cd.cfg (toSection n) = true then cd
        else cdAddSection cd (toSection n) [] false).cfg = odSet cd.cfg (toSection n) []
      rw [if_neg (by rw [h]; exact Bool.false_ne_true)]
      show (if odMem cd.cfg (toSection (toSection n)) = true then cd.cfg
        else odSet cd.cfg (toSection (toSection n)) (sdNew [])) = odSet cd.cfg (toSection n) []
      rw [toSection_idem, if_neg (by rw [h]; exact Bool.false_ne_true)]
      rfl
    · rfl

/-- Witness for C8 at a concrete `ConfigDict`: setting the pointer to the
existing section `a` and appending a fresh section both keep the
invariant. -/
theorem C8_pointer_invariant_amended_witness :
    cdInv (cdSetSection exC8Cd (some (strL "a"))) = true ∧
    cdInv (cdAddSection exC8Cd (strL "b") [] false) = true :=
  ⟨C8_pointer_invariant_amended.2.1 exC8Cd (some (strL "a")) (by decide),
   C8_pointer_invariant_amended.2.2.2.2.2.1 exC8Cd (strL "b") [] false (by decide)⟩

/-! ## C7 helper lemmas: idempotence of `outer` merges -/

theorem odKeys_odSet_mem {β : Type} (d : List (Str × β)) (k : Str) (v : β)
    (h : odMem d k = true) : odKeys (odSet d k v) = odKeys d := by
  induction d with
  | nil => cases h
  | cons p rest ih =>
    obtain ⟨k0, v0⟩ := p
    rw [odMem_cons] at h
    simp only [odSet]
    by_cases h0 : k0 = k
    · rw [if_pos h0, odKeys_cons, odKeys_cons, h0]
    · rw [if_neg h0, odKeys_cons, odKeys_cons, ih (by rw [if_neg h0] at h; exact h)]

theorem odKeys_odSet_not {β : Type} (d : List (Str × β)) (k : Str) (v : β)
    (h : odMem d k = false) : odKeys (odSet d k v) = odKeys d ++ [k] := by
  induction d with
  | nil => rfl
  | cons p rest ih =>
    obtain ⟨k0, v0⟩ := p
    rw [odMem_cons] at h
    by_cases h0 : k0 = k
    · rw [if_pos h0] at h
      cases h
    · rw [if_neg h0] at h
      simp only [odSet]
      rw [if_neg h0, odKeys_cons, odKeys_cons, ih h, List.cons_append]

theorem odLookup_odSet_cases {β : Type} (d : List (Str × β)) (k0 : Str) (v : β)
    (k : Str) (sec : β) (h : odLookup (odSet d k0 v) k = some sec) :
    sec = v ∨ odLookup d k = some sec := by
  by_cases he : k = k0
  · subst he
    rw [odLookup_odSet_self] at h
    cases h
    exact Or.inl rfl
  · rw [odLookup_odSet_ne d k0 k v he] at h
    exact Or.inr h

theorem cdFormat_aux_nodup (raw : List (Str × List (Str × Value)))
    (acc : List (Str × SectionDict)) (hacc : (odKeys acc).Nodup) :
    (odKeys (raw.foldl (fun a p => odSet a (toSection p.1) (sdNew p.2)) acc)).Nodup := by
  induction raw generalizing acc with
  | nil => exact hacc
  | cons p rest ih =>
    rw [List.foldl_cons]
    refine ih _ ?_
    by_cases hm : odMem acc (toSection p.1) = true
    · rw [odKeys_odSet_mem _ _ _ hm]
      exact hacc
    · rw [odKeys_odSet_not _ _ _ (Bool.not_eq_true _ |>.mp hm), List.nodup_append]
      refine ⟨hacc, List.nodup_singleton _, ?_⟩
      intro a ha hb
      rw [List.mem_singleton] at hb
      subst hb
      exact hm ((odMem_iff_mem_keys acc (toSection p.1)).mpr ha)

theorem cdFormat_aux_norm (raw : List (Str × List (Str × Value)))
    (acc : List (Str × SectionDict))
    (hacc : ∀ k ∈ odKeys acc, toSection k = k) :
    ∀ k ∈ odKeys (raw.foldl (fun a p => odSet a (toSection p.1) (sdNew p.2)) acc),
      toSection k = k := by
  induction raw generalizing acc with
  | nil => exact hacc
  | cons p rest ih =>
    rw [List.foldl_cons]
    refine ih _ ?_
    intro k hk
    by_cases hm : odMem acc (toSection p.1) = true
    · rw [odKeys_odSet_mem _ _ _ hm] at hk
      exact hacc k hk
    · rw [odKeys_odSet_not _ _ _ (Bool.not_eq_true _ |>.mp hm), List.mem_append] at hk
      rcases hk with hk | hk
      · exact hacc k hk
      · rw [List.mem_singleton] at hk
        subst hk
        exact toSection_idem p.1

theorem cdFormat_aux_vals (raw : List (Str × List (Str × Value)))
    (acc : List (Str × SectionDict))
    (hacc : ∀ k sec, odLookup acc k = some sec → (odKeys sec).Nodup) :
    ∀ k sec, odLookup (raw.foldl (fun a p => odSet a (toSection p.1) (sdNew p.2)) acc) k
      = some sec → (odKeys sec).Nodup := by
  induction raw generalizing acc with
  | nil => exact hacc
  | cons p rest ih =>
    rw [List.foldl_cons]
    refine ih _ ?_
    intro k sec hl
    rcases odLookup_odSet_cases acc (toSection p.1) (sdNew p.2) k sec hl with he | he
    · subst he
      exact sdNew_keys_nodup p.2
    · exact hacc k sec he

theorem odLookup_cdModify_self (cfg : List (Str × SectionDict)) (k : Str)
    (g : SectionDict → SectionDict) (c : SectionDict)
    (h : odLookup cfg k = some c) : odLookup (cdModify cfg k g) k = some (g c) := by
  induction cfg with
  | nil => cases h
  | cons p rest ih =>
    obtain ⟨k0, v0⟩ := p
    rw [odLookup_cons] at h
    simp only [cdModify]
    by_cases h0 : k0 = k
    · rw [if_pos h0] at h
      cases h
      rw [if_pos h0, odLookup_cons, if_pos h0]
    · rw [if_neg h0] at h
      rw [if_neg h0, odLookup_cons, if_neg h0]
      exact ih h

theorem odLookup_cdModify_ne (cfg : List (Str × SectionDict)) (k k' : Str)
    (g : SectionDict → SectionDict) (h : k' ≠ k) :
    odLookup (cdModify cfg k g) k' = odLookup cfg k' := by
  induction cfg with
  | nil => rfl
  | cons p rest ih =>
    obtain ⟨k0, v0⟩ := p
    simp only [cdModify]
    by_cases h0 : k0 = k
    · rw [if_pos h0, odLookup_cons, odLookup_cons, if_neg, if_neg]
      · intro hh
        exact h (hh.symm.trans h0)
      · intro hh
        exact h (hh.symm.trans h0)
    · rw [if_neg h0, odLookup_cons, odLookup_cons, ih]

theorem cdModify_self_id (cfg : List (Str × SectionDict)) (k : Str)
    (g : SectionDict → SectionDict) (c : SectionDict)
    (hl : odLookup cfg k = some c) (hg : g c = c) : cdModify cfg k g = cfg := by
  induction cfg with
  | nil => rfl
  | cons p rest ih =>
    obtain ⟨k0, v0⟩ := p
    rw [odLookup_cons] at hl
    simp only [cdModify]
    by_cases h0 : k0 = k
    · rw [if_pos h0] at hl
      cases hl
      rw [if_pos h0, hg]
    · rw [if_neg h0] at hl
      rw [if_neg h0, ih hl]

theorem outerStep_mem_self (R : ConfigDict) (acc : ConfigDict) (k : Str)
    (hnorm : toSection k = k) : odMem (outerStepPure R acc k).cfg k = true := by
  unfold outerStepPure
  by_cases hm : odMem acc.cfg k = true
  · rw [if_pos hm]
    show odMem (cdModify acc.cfg (toSection k) _) k = true
    rw [odMem_cdModify]
    exact hm
  · rw [if_neg hm]
    show odMem (if odMem acc.cfg (toSection k) = true then acc.cfg
      else odSet acc.cfg (toSection k) _) k = true
    rw [hnorm, if_neg hm]
    exact odMem_odSet_self acc.cfg k _

theorem outerStep_mem_mono (R : ConfigDict) (acc : ConfigDict) (k k0 : Str)
    (h : odMem acc.cfg k0 = true) : odMem (outerStepPure R acc k).cfg k0 = true := by
  unfold outerStepPure
  by_cases hm : odMem acc.cfg k = true
  · rw [if_pos hm]
    show odMem (cdModify acc.cfg (toSection k) _) k0 = true
    rw [odMem_cdModify]
    exact h
  · rw [if_neg hm]
    show odMem (if odMem acc.cfg (toSection k) = true then acc.cfg
      else odSet acc.cfg (toSection k) _) k0 = true
    by_cases hm2 : odMem acc.cfg (toSection k) = true
    · rw [if_pos hm2]
      exact h
    · rw [if_neg hm2]
      exact odMem_odSet_mono acc.cfg (toSection k) k0 _ h

theorem outerFold_mem (R : ConfigDict) (keys : List Str) (acc : ConfigDict)
    (k0 : Str) (h : odMem acc.cfg k0 = true) :
    odMem (keys.foldl (outerStepPure R) acc).cfg k0 = true := by
  induction keys generalizing acc with
  | nil => exact h
  | cons k rest ih =>
    rw [List.foldl_cons]
    exact ih _ (outerStep_mem_mono R acc k k0 h)

theorem outerStep_lookup_ne (R : ConfigDict) (acc : ConfigDict) (k k' : Str)
    (hnorm : toSection k' = k') (h : k ≠ k') :
    odLookup (outerStepPure R acc k').cfg k = odLookup acc.cfg k := by
  unfold outerStepPure
  by_cases hm : odMem acc.cfg k' = true
  · rw [if_pos hm]
    show odLookup (cdModify acc.cfg (toSection k') _) k = odLookup acc.cfg k
    rw [hnorm]
    exact odLookup_cdModify_ne acc.cfg k' k _ h
  · rw [if_neg hm]
    show odLookup (if odMem acc.cfg (toSection k') = true then acc.cfg
      else odSet acc.cfg (toSection k') _) k = odLookup acc.cfg k
    rw [hnorm, if_neg hm]
    exact odLookup_odSet_ne acc.cfg k' k _ h

theorem outerFold_lookup_not (R : ConfigDict) (keys : List Str) (acc : ConfigDict)
    (k : Str) (hnorm : ∀ k' ∈ keys, toSection k' = k') (h : k ∉ keys) :
    odLookup (keys.foldl (outerStepPure R) acc).cfg k = odLookup acc.cfg k := by
  induction keys generalizing acc with
  | nil => rfl
  | cons k' rest ih =>
    rw [List.foldl_cons]
    have hk : k ∉ rest := fun hh => h (List.mem_cons_of_mem k' hh)
    have hne : k ≠ k' := fun hh => h (hh ▸ List.mem_cons_self k' rest)
    rw [ih _ (fun a ha => hnorm a (List.mem_cons_of_mem k' ha)) hk]
    exact outerStep_lookup_ne R acc k k'
      (hnorm k' (List.mem_cons_self k' rest)) hne

theorem outerStep_lookup_self (R : ConfigDict) (acc : ConfigDict) (k : Str)
    (hnorm : toSection k = k)
    (hrsec : (odKeys ((cdGetSectionRead R (some k)).getD [])).Nodup) :
    ∃ c, odLookup (outerStepPure R acc k).cfg k = some c ∧
      odUpdate c (sdNew (sdMergeBatch ((cdGetSectionRead R (some k)).getD [])
        (odKeys ((cdGetSectionRead R (some k)).getD [])))) = c := by
  set rsec := (cdGetSectionRead R (some k)).getD [] with hrs
  set B := sdNew (sdMergeBatch rsec (odKeys rsec)) with hB
  unfold outerStepPure
  by_cases hm : odMem acc.cfg k = true
  · rw [if_pos hm]
    rw [odMem_eq_isSome] at hm
    obtain ⟨lsec, hlsec⟩ := Option.isSome_iff_exists.mp hm
    refine ⟨odUpdate lsec B, ?_, ?_⟩
    · show odLookup (cdModify acc.cfg (toSection k) _) k = _
      rw [hnorm]
      have := odLookup_cdModify_self acc.cfg k
        (fun _ => odUpdate ((odLookup acc.cfg k).getD []) B) lsec hlsec
      rw [this, hlsec]
      rfl
    · exact odUpdate_idem lsec B (sdNew_keys_nodup _)
  · rw [if_neg hm]
    refine ⟨sdNew rsec, ?_, ?_⟩
    · show odLookup (if odMem acc.cfg (toSection k) = true then acc.cfg
        else odSet acc.cfg (toSection k) (sdNew rsec)) k = _
      rw [hnorm, if_neg hm]
      exact odLookup_odSet_self acc.cfg k (sdNew rsec)
    · rw [hB, sdMergeBatch_self rsec hrsec]
      exact odUpdate_eq_self _ _
        (fun p hp => odLookup_self_of_nodup _ p.1 p.2 (sdNew_keys_nodup _) hp)

theorem outerFold_idem (R : ConfigDict) (keys : List Str) :
    ∀ acc : ConfigDict, keys.Nodup → (∀ k ∈ keys, toSection k = k) →
      (∀ k ∈ keys, (odKeys ((cdGetSectionRead R (some k)).getD [])).Nodup) →
      keys.foldl (outerStepPure R) (keys.foldl (outerStepPure R) acc) =
        keys.foldl (outerStepPure R) acc := by
  induction keys with
  | nil =>
    intro acc _ _ _
    rfl
  | cons k rest ih =>
    intro acc hnd hnorm hsec
    rw [List.nodup_cons] at hnd
    have hknorm : toSection k = k := hnorm k (List.mem_cons_self k rest)
    have hkrsec := hsec k (List.mem_cons_self k rest)
    have hnormrest : ∀ a ∈ rest, toSection a = a :=
      fun a ha => hnorm a (List.mem_cons_of_mem k ha)
    have hsecrest : ∀ a ∈ rest, (odKeys ((cdGetSectionRead R (some a)).getD [])).Nodup :=
      fun a ha => hsec a (List.mem_cons_of_mem k ha)
    rw [List.foldl_cons, List.foldl_cons]
    set acc1 := outerStepPure R acc k with hacc1
    set A := rest.foldl (outerStepPure R) acc1 with hA
    have hstepA : outerStepPure R A k = A := by
      obtain ⟨c, hc, hcfix⟩ := outerStep_lookup_self R acc k hknorm hkrsec
      have hcA : odLookup A.cfg k = some c := by
        rw [hA, outerFold_lookup_not R rest acc1 k hnormrest hnd.1]
        exact hc
      have hmemA : odMem A.cfg k = true := by
        rw [odMem_eq_isSome, hcA]
        rfl
      simp only [outerStepPure]
      rw [if_pos hmemA, hknorm, hcA]
      simp only [Option.getD_some]
      rw [cdModify_self_id A.cfg k _ c hcA hcfix]
    rw [hstepA, hA]
    exact ih acc1 hnd.2 hnormrest hsecrest

/-- With `how='outer'` the preprocessing takes all right keys with
`update=true`, so the `SectionDict` merge is `_build` in update mode. -/
theorem sdMerge_outer_eq (d x : SectionDict) :
    sdMerge d x (some (strL "outer")) =
      .ok (odUpdate d (sdNew (sdMergeBatch x (odKeys x)))) := rfl

theorem foldlM_eq_foldl {σ : Type} (stepM : σ → Str → Except PyErr σ)
    (stepP : σ → Str → σ) (hstep : ∀ acc k, stepM acc k = .ok (stepP acc k)) :
    ∀ (keys : List Str) (acc : σ),
      List.foldlM stepM acc keys = .ok (List.foldl stepP acc keys) := by
  intro keys
  induction keys with
  | nil =>
    intro acc
    rfl
  | cons k rest ih =>
    intro acc
    rw [List.foldlM_cons, hstep acc k, List.foldl_cons]
    exact ih (stepP acc k)

/-- `merge_config_dict` with `how='outer'` computes the pure fold of
`outerStepPure`. -/
theorem cdMergeOuter_eq (L R : ConfigDict) :
    cdMergeConfigDict L R (some (strL "outer")) none =
      .ok ((odKeys R.cfg).foldl (outerStepPure R) L) := by
  have hstep : ∀ (acc : ConfigDict) (k : Str),
      (if odMem acc.cfg k then do
        let rsec := (cdGetSectionRead R (some k)).getD []
        let lsec := (odLookup acc.cfg (toSection k)).getD []
        let merged ← sdMerge lsec rsec (some (strL "outer"))
        .ok { acc with cfg := cdModify acc.cfg (toSection k) (fun _ => merged) }
      else
        .ok (cdAddSection acc k ((cdGetSectionRead R (some k)).getD []) false)) =
      .ok (outerStepPure R acc k) := by
    intro acc k
    unfold outerStepPure
    by_cases hm : odMem acc.cfg k = true
    · rw [if_pos hm, if_pos hm]
      rfl
    · rw [if_neg hm, if_neg hm]
  show (match mergeDictPreprocessing L.cfg R.cfg (some (strL "outer")) with
    | none => Except.error PyErr.typeError
    | some (keys, update) =>
      let left1 := if !update then { L with cfg := [] } else L
      keys.foldlM _ left1) = _
  rw [show mergeDictPreprocessing L.cfg R.cfg (some (strL "outer")) =
    some (odKeys R.cfg, true) from rfl]
  exact foldlM_eq_foldl _ _ hstep (odKeys R.cfg) L

/-! ## C7 — idempotence of `outer` merges -/

/-- Claim C7: for every `SectionDict` (or raw mapping) `d` and every mapping
`x`, and for every `ConfigDict` `cd` and raw two-level mapping `xr`, merging
with `how='outer'` twice yields the same dictionary as merging once. -/
theorem C7_outer_merge_idempotent (d x : SectionDict) (cd : ConfigDict)
    (xr : List (Str × List (Str × Value))) :
    ((sdMerge d x (some (strL "outer"))).bind
      (fun m => sdMerge m x (some (strL "outer")))) = sdMerge d x (some (strL "outer")) ∧
    ((cdMergeRaw cd xr (some (strL "outer")) none).bind
      (fun m => cdMergeConfigDict m (cdOfDict xr) (some (strL "outer")) none)) =
      cdMergeRaw cd xr (some (strL "outer")) none := by
  constructor
  · rw [sdMerge_outer_eq d x]
    show sdMerge (odUpdate d (sdNew (sdMergeBatch x (odKeys x)))) x (some (strL "outer")) = _
    rw [sdMerge_outer_eq]
    exact congrArg Except.ok (odUpdate_idem d _ (sdNew_keys_nodup _))
  · set R := cdOfDict xr with hR
    have hfmt : R.cfg = cdFormatConfigDict xr := rfl
    have hnd : (odKeys R.cfg).Nodup := by
      rw [hfmt]
      exact cdFormat_aux_nodup xr [] (by simp [odKeys])
    have hnorm : ∀ k ∈ odKeys R.cfg, toSection k = k := by
      rw [hfmt]
      exact cdFormat_aux_norm xr [] (by simp [odKeys])
    have hvals : ∀ k sec, odLookup R.cfg k = some sec → (odKeys sec).Nodup := by
      rw [hfmt]
      exact cdFormat_aux_vals xr [] (fun k sec h => by cases h)
    have hsec : ∀ k ∈ odKeys R.cfg,
        (odKeys ((cdGetSectionRead R (some k)).getD [])).Nodup := by
      intro k hk
      show (odKeys ((odLookup R.cfg (toSection k)).getD [])).Nodup
      rw [hnorm k hk]
      cases hl : odLookup R.cfg k with
      | none => simp [odKeys]
      | some sec => exact hvals k sec hl
    show (cdMergeConfigDict cd R (some (strL "outer")) none).bind
      (fun m => cdMergeConfigDict m R (some (strL "outer")) none) =
      cdMergeConfigDict cd R (some (strL "outer")) none
    rw [cdMergeOuter_eq cd R]
    show cdMergeConfigDict ((odKeys R.cfg).foldl (outerStepPure R) cd) R
      (some (strL "outer")) none = _
    rw [cdMergeOuter_eq]
    exact congrArg Except.ok (outerFold_idem R (odKeys R.cfg) cd hnd hnorm hsec)

/-! ## C4 helper lemmas: flag stripping on keys -/

theorem spanFlagTok_all_flag (t : Str) (c0 : Char) (r : Str)
    (ht : ∀ c ∈ t, isFlagChar c = true) (hc0 : isFlagChar c0 = false) :
    spanFlagTok (t ++ c0 :: r) = (t, c0 :: r) := by
  induction t with
  | nil =>
    show spanFlagTok (c0 :: r) = ([], c0 :: r)
    simp only [spanFlagTok]
    rw [if_neg (by rw [hc0]; exact Bool.false_ne_true)]
  | cons c t' ih =>
    show spanFlagTok (c :: (t' ++ c0 :: r)) = (c :: t', c0 :: r)
    simp only [spanFlagTok]
    rw [if_pos (ht c (List.mem_cons_self c t')),
      ih (fun a ha => ht a (List.mem_cons_of_mem c ha))]

theorem stripOneFlag_flagged (fl : Str) (k : Str) (hfl1 : fl ≠ [])
    (hfl2 : ∀ c ∈ fl, isFlagChar c = true) :
    stripOneFlag ('@' :: fl ++ '-' :: k) = some (fl, k) := by
  show stripOneFlag ('@' :: (fl ++ '-' :: k)) = some (fl, k)
  simp only [stripOneFlag]
  rw [spanFlagTok_all_flag fl '-' k hfl2 (by decide)]
  cases fl with
  | nil => exact absurd rfl hfl1
  | cons c t => rfl

theorem parseKeyAux_of_none (m : Nat) (s : Str) (hs : stripOneFlag s = none) :
    parseKeyAux m s = (s, []) := by
  cases m with
  | zero => rfl
  | succ n =>
    simp only [parseKeyAux]
    rw [hs]

theorem parseKey_of_none (s : Str) (hs : stripOneFlag s = none) :
    parseKey s = (s, []) :=
  parseKeyAux_of_none s.length s hs

theorem sicPost_defaults_id (v : Value) : sicPost false false v = v := rfl

theorem exc_bind_ok {α β : Type} (x : α) (f : α → Except PyErr β) :
    (Except.ok x >>= f) = f x := rfl

theorem decode_single (k fl sv : Str) (v : Value)
    (hpk : parseKey (addFlagsToKey k (some fl)) = (k, [fl]))
    (hconv : convApply fl (.vStr sv) = .ok v) :
    convertDictFromStr true (strL "ignore") false false false (strL "ignore") (strL "first")
      [(addFlagsToKey k (some fl), .vStr sv)] = .ok [(k, v)] := by
  have hsic : singleItemConversion (some fl) (strL "ignore") false false (.vStr sv)
      = .ok v := by
    show sicHandle (strL "ignore") (.vStr sv)
      ((convApply fl (.vStr sv)).map (sicPost false false)) = .ok v
    rw [hconv]
    show sicHandle (strL "ignore") (.vStr sv) (.ok (sicPost false false v)) = .ok v
    rw [sicPost_defaults_id]
    rfl
  have hmic : multipleItemConversion (strL "ignore") false false false (.vStr sv) [fl]
      = .ok v := by
    simp only [multipleItemConversion, processMIC]
    rw [if_neg (fun h : [fl].isEmpty = true => Bool.false_ne_true h)]
    show List.foldlM
      (fun acc f => singleItemConversion (some f) (strL "ignore") false false acc)
      (Value.vStr sv) [fl] = .ok v
    rw [List.foldlM_cons]
    simp only [hsic, List.foldlM_nil]
    rfl
  simp only [convertDictFromStr, List.foldlM_cons, List.foldlM_nil]
  rw [hpk]
  show (multipleItemConversion (strL "ignore") false false false (Value.vStr sv) [fl] >>=
      fun nv => handleDuplicates [] k nv (strL "first")) >>=
      (fun init => pure init) = Except.ok [(k, v)]
  rw [hmic]
  rfl

theorem parseKey_flagged (fl : Str) (k : Str) (hfl1 : fl ≠ [])
    (hfl2 : ∀ c ∈ fl, isFlagChar c = true) (hk : stripOneFlag k = none) :
    parseKey (addFlagsToKey k (some fl)) = (k, [fl]) := by
  show parseKeyAux ((fl ++ '-' :: k).length + 1) ('@' :: fl ++ '-' :: k) = (k, [fl])
  simp only [parseKeyAux]
  rw [stripOneFlag_flagged fl k hfl1 hfl2]
  show ((parseKeyAux (fl ++ '-' :: k).length k).1,
      fl :: (parseKeyAux (fl ++ '-' :: k).length k).2) = (k, [fl])
  rw [parseKeyAux_of_none (fl ++ '-' :: k).length k hk]

/-- Counterexample to claim C4 as stated.  (a) The claim quantifies over
every key, but a key that itself starts with a flag token is re-parsed on
decode: `{'@s-x': True}` encodes to `{'@b-@s-x': 'True'}` and decodes to
`{'x': 'True'}` — the key loses its `@s-` prefix and the value goes
through both flags.  (b) The claim lists `Reference` among the round-tripped
types, but `Reference` is an argument-less stub class, so the `r` decoder
`Reference(value)` always raises `TypeError`; under the default `ignore`
error policy the decode returns the rendered string, not the original
`Reference`. -/
theorem C4_counterexample :
    codecRoundtrip [(strL "@s-x", Value.vBool true)]
      = .ok [(strL "x", Value.vStr (strL "True"))] ∧
    strL "x" ≠ strL "@s-x" ∧
    codecRoundtrip [(strL "k", Value.vRef)]
      = .ok [(strL "k", Value.vStr refRender)] ∧
    vbeq (Value.vStr refRender) Value.vRef = false :=
  ⟨rfl, by decide, rfl, rfl⟩

/-- Claim C4 as amended: for every key `k` that does not itself begin with a
delimited flag token, encoding then decoding a one-entry dictionary with
`convert_dict_to_str` / `convert_dict_from_str` (both at their default
arguments) round-trips for representative values of the conversion table's
types bool, int, float, str, list, tuple, Path and date/timestamp — lists
and tuples going through the `auto` flag and booleans through `b` as the
claim's examples state.  (`Reference` is excluded: see the
counterexample.) -/
theorem C4_roundtrip_amended (k : Str) (hk : stripOneFlag k = none) :
    codecRoundtrip [(k, repBool)] = .ok [(k, repBool)] ∧
    codecRoundtrip [(k, repInt)] = .ok [(k, repInt)] ∧
    codecRoundtrip [(k, repFloat)] = .ok [(k, repFloat)] ∧
    codecRoundtrip [(k, repStr)] = .ok [(k, repStr)] ∧
    codecRoundtrip [(k, repList)] = .ok [(k, repList)] ∧
    codecRoundtrip [(k, repTuple)] = .ok [(k, repTuple)] ∧
    codecRoundtrip [(k, repPath)] = .ok [(k, repPath)] ∧
    codecRoundtrip [(k, repDate)] = .ok [(k, repDate)] := by
  refine ⟨?_, ?_, ?_, ?_, ?_, ?_, ?_, ?_⟩
  · exact decode_single k (strL "b") (strOfValue repBool) repBool
      (parseKey_flagged (strL "b") k (by decide) (by decide) hk) rfl
  · exact decode_single k (strL "i") (strOfValue repInt) repInt
      (parseKey_flagged (strL "i") k (by decide) (by decide) hk) rfl
  · refine decode_single k (strL "f") (strOfValue repFloat) repFloat
      (parseKey_flagged (strL "f") k (by decide) (by decide) hk) ?_
    have hq : (1 : Rat) * (((9 : Nat) : Rat) + ((9 : Nat) : Rat) / ((10 : Rat) ^ (1 : Nat)))
        = (⟨99, 10, by decide, by decide⟩ : Rat) := by
      rw [Rat.mk'_eq_divInt, Rat.divInt_eq_div]
      norm_num
    show Except.ok (Value.vFloat
        ((1 : Rat) * (((9 : Nat) : Rat) + ((9 : Nat) : Rat) / ((10 : Rat) ^ (1 : Nat)))))
      = Except.ok repFloat
    rw [hq]
    rfl
  · exact decode_single k (strL "s") (strOfValue repStr) repStr
      (parseKey_flagged (strL "s") k (by decide) (by decide) hk) rfl
  · exact decode_single k (strL "auto") (strOfValue repList) repList
      (parseKey_flagged (strL "auto") k (by decide) (by decide) hk) rfl
  · exact decode_single k (strL "auto") (strOfValue repTuple) repTuple
      (parseKey_flagged (strL "auto") k (by decide) (by decide) hk) rfl
  · exact decode_single k (strL "p") (strOfValue repPath) repPath
      (parseKey_flagged (strL "p") k (by decide) (by decide) hk) rfl
  · exact decode_single k (strL "datedb") (strOfValue repDate) repDate
      (parseKey_flagged (strL "datedb") k (by decide) (by decide) hk) rfl

/-- Witness for the amended C4 round-trip at the concrete flag-free key
`x`, on the claim's own `auto`-flag example value `[1, 2, 3]`. -/
theorem C4_roundtrip_amended_witness :
    stripOneFlag (strL "x") = none ∧
    codecRoundtrip [(strL "x", repList)] = .ok [(strL "x", repList)] :=
  ⟨rfl, (C4_roundtrip_amended (strL "x") rfl).2.2.2.2.1⟩

/-! ## C1 helper lemmas: the call-style read -/

theorem odLookup_some_mem {β : Type} (d : List (Str × β)) (k : Str) (v : β)
    (h : odLookup d k = some v) : (k, v) ∈ d := by
  induction d with
  | nil => cases h
  | cons p rest ih =>
    obtain ⟨k', v'⟩ := p
    rw [odLookup_cons] at h
    by_cases hk : k' = k
    · rw [if_pos hk] at h
      injection h with hv
      subst hk
      subst hv
      exact List.mem_cons_self _ _
    · rw [if_neg hk] at h
      exact List.mem_cons_of_mem _ (ih h)

theorem odMem_some {β : Type} (d : List (Str × β)) (k : Str)
    (h : odMem d k = true) : ∃ v, odLookup d k = some v := by
  rw [odMem_eq_isSome] at h
  exact Option.isSome_iff_exists.mp h

theorem odMem_false_lookup {β : Type} (d : List (Str × β)) (k : Str)
    (h : ¬ odMem d k = true) : odLookup d k = none := by
  cases hl : odLookup d k with
  | none => rfl
  | some v => exact absurd (by rw [odMem_eq_isSome, hl]; rfl) h

theorem sdNormalized_key_fix (sec : SectionDict) (hn : sdNormalized sec)
    (k : Str) (h : odMem sec k = true) : toKey k = k := by
  have hk : k ∈ odKeys sec := (odMem_iff_mem_keys sec k).mp h
  obtain ⟨q, hq, hq1⟩ := List.mem_map.mp hk
  rw [← hq1]
  exact hn q hq

theorem odKeys_contains {β : Type} (d : List (Str × β)) (k : Str)
    (h : odMem d k = true) : (odKeys d).contains k = true := by
  have hm := (odMem_iff_mem_keys d k).mp h
  exact List.elem_iff.mpr hm

theorem cdGetSectionRead_named (cd : ConfigDict) (sn : Str)
    (hsn : toSection sn = sn) :
    cdGetSectionRead cd (some sn) = odLookup cd.cfg sn := by
  show odLookup cd.cfg (toSection sn) = odLookup cd.cfg sn
  rw [hsn]

theorem cfgCheckSection_mem (st : ConfigState) (sn : Str)
    (hsn : toSection sn = sn) (hmem : odMem st.ccfg.cfg sn = true) :
    cfgCheckSection st (some sn) none = .ok (st, some sn) := by
  have hcont := odKeys_contains st.ccfg.cfg sn hmem
  show (if ¬((odKeys st.ccfg.cfg).contains (toSection sn) = true) ∧
        st.searchInDefaultConfig = true then
      (do
        let st1 ← cfgAddDefaultConfigSections st (some (toSection sn))
        Except.ok (st1, some (toSection sn)))
    else Except.ok (st, some (toSection sn))) = Except.ok (st, some sn)
  rw [hsn, if_neg (fun hc => hc.1 hcont)]

theorem cfgGetSection_mem (st : ConfigState) (sn : Str)
    (hsn : toSection sn = sn) (hmem : odMem st.ccfg.cfg sn = true) :
    cfgGetSection st (some sn) none = .ok (st, odLookup st.ccfg.cfg sn) := by
  show (cfgCheckSection st (some sn) none >>=
    fun p => Except.ok (p.1, cdGetSectionRead p.1.ccfg p.2)) = _
  rw [cfgCheckSection_mem st sn hsn hmem, exc_bind_ok]
  show Except.ok (st, cdGetSectionRead st.ccfg (some sn)) = _
  rw [cdGetSectionRead_named st.ccfg sn hsn]

/-- Counterexample to claim C1 as stated: the claim guards only the third
cascade level (named section of the default config) by the
`search_in_default_config` policy and lets the fourth level (default section
of the default config) apply unconditionally.  In the code both levels sit
behind the policy, so with the policy disabled a key that exists only in the
default config's default section raises `KeyError` while the claimed cascade
would return it. -/
theorem C1_counterexample :
    cfgCall exC1Off none (strL "x") none = .error .keyError ∧
    cascadeClaimAsStated exC1Off (strL "default") (strL "x") none
      = .ok (.vInt 7) :=
  ⟨rfl, rfl⟩

/-- Claim C1 as amended: on a well-formed state — the named section exists
in the live and the default config, both configs' default-section pointers
name one existing section `ds`, section names and stored keys are
normalization-fixed — the call-style read `config(section, key, default)`
follows the four-level cascade in which the third AND fourth levels are both
guarded by the `search_in_default_config` policy, then falls back to the
explicit default, and raises `KeyError` otherwise. -/
theorem C1_cascade_amended (st : ConfigState) (s k : Str) (dflt : Option Value)
    (ds : Str)
    (hs : toSection s = s)
    (hmem : odMem st.ccfg.cfg s = true)
    (hds : st.ccfg.defaultSectionPtr = some ds)
    (hdsn : toSection ds = ds)
    (hdsmem : odMem st.ccfg.cfg ds = true)
    (hdmem : odMem st.dcfg.cfg s = true)
    (hdds : st.dcfg.defaultSectionPtr = some ds)
    (hddsmem : odMem st.dcfg.cfg ds = true)
    (hnc : cdNormalized st.ccfg)
    (hnd : cdNormalized st.dcfg) :
    cfgCall st (some s) k dflt
      = (cascadeSpec st s k dflt).map (fun v => (st, v)) := by
  obtain ⟨csec, hcsec⟩ := odMem_some _ _ hmem
  obtain ⟨cdef, hcdef⟩ := odMem_some _ _ hdsmem
  obtain ⟨dsec, hdsec⟩ := odMem_some _ _ hdmem
  obtain ⟨ddef, hddef⟩ := odMem_some _ _ hddsmem
  have hncs : sdNormalized csec := hnc _ (odLookup_some_mem _ _ _ hcsec)
  have hncd : sdNormalized cdef := hnc _ (odLookup_some_mem _ _ _ hcdef)
  have hnds : sdNormalized dsec := hnd _ (odLookup_some_mem _ _ _ hdsec)
  have hndd : sdNormalized ddef := hnd _ (odLookup_some_mem _ _ _ hddef)
  simp only [cfgCall]
  rw [cfgGetSection_mem st s hs hmem, hcsec, exc_bind_ok]
  simp only []
  by_cases hm1 : odMem csec k = true
  · rw [if_pos hm1]
    obtain ⟨v1, hv1⟩ := odMem_some csec k hm1
    rw [sdNormalized_key_fix csec hncs k hm1, hv1]
    have hspec : cascadeSpec st s k dflt = .ok v1 := by
      simp only [cascadeSpec]
      rw [hcsec, Option.getD_some, hv1]
    rw [hspec]
    rfl
  · rw [if_neg hm1]
    have hlk1 := odMem_false_lookup csec k hm1
    rw [hds, cfgGetSection_mem st ds hdsn hdsmem, hcdef, exc_bind_ok]
    simp only []
    by_cases hm2 : odMem cdef k = true
    · rw [if_pos hm2]
      obtain ⟨v2, hv2⟩ := odMem_some cdef k hm2
      rw [sdNormalized_key_fix cdef hncd k hm2, hv2]
      have hspec : cascadeSpec st s k dflt = .ok v2 := by
        simp only [cascadeSpec]
        rw [hcsec, Option.getD_some, hlk1, hds]
        simp only []
        rw [hcdef, Option.getD_some, hv2]
      rw [hspec]
      rfl
    · rw [if_neg hm2]
      have hlk2 := odMem_false_lookup cdef k hm2
      rw [cdGetSectionRead_named st.dcfg s hs, hdsec]
      simp only []
      by_cases hp : st.searchInDefaultConfig = true
      · by_cases hm3 : odMem dsec k = true
        · rw [if_pos ⟨hm3, hp⟩]
          obtain ⟨v3, hv3⟩ := odMem_some dsec k hm3
          rw [sdNormalized_key_fix dsec hnds k hm3, hv3]
          have hspec : cascadeSpec st s k dflt = .ok v3 := by
            simp only [cascadeSpec]
            rw [hcsec, Option.getD_some, hlk1, hds]
            simp only []
            rw [hcdef, Option.getD_some, hlk2, if_pos hp, hdsec,
              Option.getD_some, hv3]
          rw [hspec]
          rfl
        · rw [if_neg (fun hc => hm3 hc.1)]
          have hlk3 := odMem_false_lookup dsec k hm3
          rw [hds, cdGetSectionRead_named st.dcfg ds hdsn, hddef]
          simp only []
          by_cases hm4 : odMem ddef k = true
          · rw [if_pos ⟨hm4, hp⟩]
            rw [hdds, cdGetSectionRead_named st.dcfg ds hdsn, hddef]
            simp only []
            obtain ⟨v4, hv4⟩ := odMem_some ddef k hm4
            rw [sdNormalized_key_fix ddef hndd k hm4, hv4]
            have hspec : cascadeSpec st s k dflt = .ok v4 := by
              simp only [cascadeSpec]
              rw [hcsec, Option.getD_some, hlk1, hds]
              simp only []
              rw [hcdef, Option.getD_some, hlk2, if_pos hp, hdsec,
                Option.getD_some, hlk3, hdds]
              simp only []
              rw [hddef, Option.getD_some, hv4]
            rw [hspec]
            rfl
          · rw [if_neg (fun hc => hm4 hc.1)]
            have hlk4 := odMem_false_lookup ddef k hm4
            have hspec : cascadeSpec st s k dflt
                = (match dflt with
                   | some v => Except.ok v
                   | none => Except.error PyErr.keyError) := by
              simp only [cascadeSpec]
              rw [hcsec, Option.getD_some, hlk1, hds]
              simp only []
              rw [hcdef, Option.getD_some, hlk2, if_pos hp, hdsec,
                Option.getD_some, hlk3, hdds]
              simp only []
              rw [hddef, Option.getD_some, hlk4]
            rw [hspec]
            cases dflt with
            | some d => rfl
            | none => rfl
      · rw [if_neg (fun hc => hp hc.2)]
        rw [hds, cdGetSectionRead_named st.dcfg ds hdsn, hddef]
        simp only []
        rw [if_neg (fun hc => hp hc.2)]
        have hspec : cascadeSpec st s k dflt
            = (match dflt with
               | some v => Except.ok v
               | none => Except.error PyErr.keyError) := by
          simp only [cascadeSpec]
          rw [hcsec, Option.getD_some, hlk1, hds]
          simp only []
          rw [hcdef, Option.getD_some, hlk2, if_neg hp]
        rw [hspec]
        cases dflt with
        | some d => rfl
        | none => rfl

/-- Witness for the amended C1 cascade on the claim's own scenario with the
policy enabled: `config('sec', 'k2')` resolves through the third level to
`4`. -/
theorem C1_cascade_amended_witness :
    cfgCall exC1State (some (strL "sec")) (strL "k2") none
      = (cascadeSpec exC1State (strL "sec") (strL "k2") none).map
          (fun v => (exC1State, v)) ∧
    cascadeSpec exC1State (strL "sec") (strL "k2") none = .ok (.vInt 4) :=
  ⟨C1_cascade_amended exC1State (strL "sec") (strL "k2") none (strL "default")
      rfl rfl rfl rfl rfl rfl rfl rfl
      (by simp only [cdNormalized, sdNormalized]; decide)
      (by simp only [cdNormalized, sdNormalized]; decide),
   rfl⟩

/-- Claim C2 evaluated at the failing input: loading an existing file that
decodes to an empty configuration, with `load_empty=False` and the default
`merge_how='right'`, is NOT a no-op — the `elif path.isfile` branch (already
known to be true) captures the control flow before the `config_dict.isempty`
guard, so the decoded dictionary is merged with `how='right'`, which clears
the live sections and replaces them with the decoded `DEFAULT` section. -/
theorem C2_load_empty_failing_input :
    cfgLoad exC2State true (some exC2Decoded) false false (some (strL "right")) =
      .ok ⟨⟨[(strL "DEFAULT", [])], some (strL "mysec"), some (strL "mysec")⟩,
           exC2State.dcfg, true⟩ ∧
    odKeys ([(strL "DEFAULT", ([] : SectionDict))]) ≠ odKeys exC2State.ccfg.cfg := by
  refine ⟨rfl, ?_⟩
  intro h
  simp only [odKeys, exC2State, List.map] at h
  exact absurd (List.head_eq_of_cons_eq h) (by decide)

end PyCfg
